import Mathlib

/-!
Verification of the sidvy-mcp group-hierarchy engine and resource clients.

Shallow embedding of the TypeScript sources:
  - src/api/groups.ts   (buildGroupTree, getGroupPath, createGroupPath,
                         getAllGroupsInWorkspace, getGroupById, listGroups)
  - src/api/client.ts   (SidvyApiClient.request)
  - NotesApi            (getNoteById, appendToNote)
  - TodosApi            (getTodoById)

Remote-service behaviour (listing with filters, creation with fresh ids,
content update) is not part of the repository; where a claim needs it, the
corresponding definitions are modelled from the spec and say so in their
doc comments.
-/

namespace Sidvy

/-- The `Group` record from `src/types.ts`:
`{ id, name, userId, workspaceId, parentId?: string | null }`.
An absent or `null` `parentId` is modelled as `none`. -/
structure Group where
  id : String
  name : String
  userId : String
  workspaceId : String
  parentId : Option String
deriving DecidableEq

/-- JavaScript truthiness of the `parentId` field as used by
`if (group.parentId)` / `currentGroup.parentId ? _ : undefined`:
`undefined`, `null` and the empty string are falsy. -/
def truthyParent : Option String → Option String
  | some p => if p = "" then none else some p
  | none => none

/-- `new Map(groups.map(g => [g.id, g])).get(i)` /
`groupMap.set(group.id, node)` followed by `groupMap.get(i)`:
for duplicate ids the last occurrence wins, hence the reverse search. -/
def lookupNode (groups : List Group) (i : String) : Option Group :=
  groups.reverse.find? (fun g => g.id == i)

/-- Node value used when materialising an id that is in the map
(the default is never reached for ids recorded by `buildState`). -/
def getGroup (groups : List Group) (i : String) : Group :=
  (lookupNode groups i).getD ⟨i, "", "", "", none⟩

/-- Mutable-node state of `buildGroupTree`: per-id `level`, `path` and
`children` (child ids in push order), plus the `rootGroups` array
(ids in push order). Fresh nodes have level 0, empty path, no children. -/
structure TState where
  level : String → Nat
  path : String → List String
  children : String → List String
  roots : List String

def initTState : TState :=
  { level := fun _ => 0, path := fun _ => [], children := fun _ => [], roots := [] }

/-- One iteration of the second `groups.forEach` in `buildGroupTree`
(src/api/groups.ts lines 185-198): if the entry has a truthy `parentId`
that is in the map, push the node onto the parent's children and set the
node's `level`/`path` from the parent's current values; if the `parentId`
is falsy, push the node onto `rootGroups`; otherwise do nothing
(the node is neither attached nor recorded as a root). -/
def attachStep (groups : List Group) (st : TState) (g : Group) : TState :=
  match truthyParent g.parentId with
  | some p =>
      match lookupNode groups p with
      | some parentG =>
          { st with
            children := fun i => if i = p then st.children p ++ [g.id] else st.children i,
            level := fun i => if i = g.id then st.level p + 1 else st.level i,
            path := fun i => if i = g.id then st.path p ++ [parentG.name] else st.path i }
      | none => st
  | none => { st with roots := st.roots ++ [g.id] }

/-- The attachment state after both `forEach` passes of `buildGroupTree`. -/
def buildState (groups : List Group) : TState :=
  groups.foldl (attachStep groups) initTState

/-- Name of the node stored under an id (used by the sort comparator). -/
def nodeName (groups : List Group) (i : String) : String :=
  (getGroup groups i).name

/-- Lexicographic strictly-less-than on character sequences. -/
def charsLt : List Char → List Char → Bool
  | _, [] => false
  | [], _ :: _ => true
  | a :: as, b :: bs => a < b || (a == b && charsLt as bs)

/-- Model of the comparator `a.localeCompare(b) <= 0`: locale-aware
comparison is modelled as lexicographic comparison of the characters. -/
def strLeB (a b : String) : Bool := !(charsLt b.data a.data)

/-- The sort comparator `(a, b) => a.name.localeCompare(b.name)`
applied to two node ids. -/
def nameLe (groups : List Group) (a b : String) : Prop :=
  strLeB (nodeName groups a) (nodeName groups b) = true

instance (groups : List Group) : DecidableRel (nameLe groups) := fun _ _ =>
  inferInstanceAs (Decidable (_ = true))

/-- `nodes.sort((a, b) => a.name.localeCompare(b.name))`: a stable sort by
name; insertion sort with the non-strict comparator is sorted and stable. -/
def sortIds (groups : List Group) (l : List String) : List String :=
  l.insertionSort (nameLe groups)

/-- A materialised `GroupTreeNode`: the spread group fields plus
`level`, `path` and the recursively materialised `children`. -/
inductive GTNode where
  | mk : Group → Nat → List String → List GTNode → GTNode

def GTNode.gid : GTNode → String
  | .mk g _ _ _ => g.id

def GTNode.glevel : GTNode → Nat
  | .mk _ l _ _ => l

def GTNode.gpath : GTNode → List String
  | .mk _ _ p _ => p

def GTNode.gchildren : GTNode → List GTNode
  | .mk _ _ _ cs => cs

/-- Materialise the node of an id: group fields from the map, `level` and
`path` from the attachment state, children sorted by name and materialised
recursively.  The fuel bounds the recursion depth; `buildGroupTree` passes
`groups.length + 1`, which is enough for every input on which the
JavaScript original terminates (the part of the node graph reachable from
`rootGroups` has depth at most the number of groups). -/
def buildNode (groups : List Group) (st : TState) : Nat → String → GTNode
  | 0, i => GTNode.mk (getGroup groups i) (st.level i) (st.path i) []
  | fuel + 1, i =>
      GTNode.mk (getGroup groups i) (st.level i) (st.path i)
        ((sortIds groups (st.children i)).map (buildNode groups st fuel))

/-- `buildGroupTree` (src/api/groups.ts lines 170-208): build the
attachment state, sort the roots (and recursively all children lists) by
name, and return the materialised forest. -/
def buildGroupTree (groups : List Group) : List GTNode :=
  (sortIds groups (buildState groups).roots).map
    (buildNode groups (buildState groups) (groups.length + 1))

/-- Parent/child structure of a tree node: the id and the ordered
children shapes, forgetting `level` and `path`. -/
inductive PTree where
  | mk : String → List PTree → PTree

mutual

def shape : GTNode → PTree
  | .mk g _ _ cs => .mk g.id (shapeList cs)

def shapeList : List GTNode → List PTree
  | [] => []
  | n :: ns => shape n :: shapeList ns

end

mutual

/-- All ids occurring in a materialised node (the node itself and,
recursively, its children). -/
def nodeIds : GTNode → List String
  | .mk g _ _ cs => g.id :: nodeIdsList cs

def nodeIdsList : List GTNode → List String
  | [] => []
  | n :: ns => nodeIds n ++ nodeIdsList ns

end

/-- All ids occurring in a forest. -/
def forestIds (f : List GTNode) : List String := nodeIdsList f

/-! ## getGroupPath (src/api/groups.ts lines 144-157)

The upward walk over the flat lookup, driven by
`currentGroup = currentGroup.parentId ? groupMap.get(currentGroup.parentId) : undefined`. -/

/-- One step of the while-loop: move from the current group to the group
its (truthy) `parentId` resolves to, or stop. -/
def stepWalk (groups : List Group) : Option Group → Option Group
  | none => none
  | some g =>
      match truthyParent g.parentId with
      | some p => lookupNode groups p
      | none => none

/-- The current group after n loop iterations. -/
def walkN (groups : List Group) : Nat → Option Group → Option Group
  | 0, c => c
  | n + 1, c => walkN groups n (stepWalk groups c)

/-- Fueled model of the whole loop of `getGroupPath`: starting from the
group found for `groupId`, repeatedly unshift the current name onto the
path and step to the parent.  `none` means the fuel ran out while the
loop was still running; the JavaScript loop terminates on an input
exactly when some fuel yields `some`. -/
def getGroupPathGo (groups : List Group) : Option Group → List String → Nat →
    Option (List String)
  | none, path, _ => some path
  | some _, _, 0 => none
  | some g, path, fuel + 1 =>
      getGroupPathGo groups (stepWalk groups (some g)) (g.name :: path) fuel

def getGroupPathF (groups : List Group) (groupId : String) (fuel : Nat) :
    Option (List String) :=
  getGroupPathGo groups (lookupNode groups groupId) [] fuel

/-! ## The remote group store and createGroupPath / getGroupById

`listGroups` (src/api/groups.ts lines 18-29) copies every defined
parameter into the query; the remote service itself is not part of the
repository, so its list/create semantics are modelled from the spec. -/

/-- The parameter record accepted by `listGroups`; `none` is `undefined`. -/
structure ListGroupsParams where
  page : Option Nat
  limit : Option Nat
  workspaceId : Option String
  parentId : Option String
  search : Option String
  sort : Option String
deriving DecidableEq

/-- The query actually sent for GET /group: exactly the defined params
(`if (params.x !== undefined) queryParams.x = params.x`). -/
structure ListGroupsQuery where
  page : Option Nat
  limit : Option Nat
  workspaceId : Option String
  parentId : Option String
  search : Option String
  sort : Option String
deriving DecidableEq

/-- `listGroups`: every defined parameter is copied into the query. -/
def listGroupsQuery (params : ListGroupsParams) : ListGroupsQuery :=
  { page := params.page, limit := params.limit, workspaceId := params.workspaceId,
    parentId := params.parentId, search := params.search, sort := params.sort }

/-- The POST /group payload built by `createGroup` callers. -/
structure CreateGroupRequest where
  name : String
  workspaceId : Option String
  parentId : Option String
deriving DecidableEq

/-- A remote call observed at the /group endpoint. -/
inductive SrvEvent where
  | list (q : ListGroupsQuery)
  | create (req : CreateGroupRequest)
deriving DecidableEq

/-- A structured error from the error taxonomy. -/
structure ApiErr where
  code : String
  message : String
deriving DecidableEq

/-- Modelled from the spec: the state of the remote group store — the
stored groups in insertion order, a counter for server-assigned ids, a
schedule of injected failures (one entry consumed per call, `none` =
succeed, exhausted schedule = succeed), and the trace of calls made. -/
structure SrvState where
  groups : List Group
  nextId : Nat
  schedule : List (Option ApiErr)
  trace : List SrvEvent
deriving DecidableEq

def popSchedule (st : SrvState) : Option ApiErr × SrvState :=
  match st.schedule with
  | [] => (none, st)
  | o :: rest => (o, { st with schedule := rest })

/-- Modelled from the spec: a stored group matches a list query when it
agrees with every filter that is present in the query. -/
def matchesGroupQuery (q : ListGroupsQuery) (g : Group) : Bool :=
  (match q.workspaceId with
   | none => true
   | some w => g.workspaceId == w) &&
  (match q.parentId with
   | none => true
   | some p => g.parentId == some p)

/-- Modelled from the spec: a list endpoint truncates to the requested
limit and returns everything when no limit is requested. -/
def applyLimit {α : Type} (limit : Option Nat) (l : List α) : List α :=
  match limit with
  | none => l
  | some m => l.take m

/-- Modelled from the spec: GET /group — filter the store by the present
query parameters, in stored order. -/
def srvList (st : SrvState) (q : ListGroupsQuery) :
    Except ApiErr (List Group) × SrvState :=
  let p := popSchedule st
  let st := { p.2 with trace := p.2.trace ++ [SrvEvent.list q] }
  match p.1 with
  | some e => (.error e, st)
  | none => (.ok (applyLimit q.limit (st.groups.filter (matchesGroupQuery q))), st)

/-- Server-assigned group ids. -/
def freshGroupId (n : Nat) : String := "srv-" ++ Nat.repr n

/-- Modelled from the spec: POST /group — append a new group with a
server-assigned id and return it. -/
def srvCreate (st : SrvState) (req : CreateGroupRequest) :
    Except ApiErr Group × SrvState :=
  let p := popSchedule st
  let st := { p.2 with trace := p.2.trace ++ [SrvEvent.create req] }
  match p.1 with
  | some e => (.error e, st)
  | none =>
      let g : Group :=
        { id := freshGroupId st.nextId, name := req.name, userId := "user",
          workspaceId := req.workspaceId.getD "", parentId := req.parentId }
      (.ok g, { st with groups := st.groups ++ [g], nextId := st.nextId + 1 })

/-- The exact query a `createGroupPath` step sends:
`listGroups({ workspaceId, parentId: currentParentId })` — every other
parameter is undefined and therefore absent. -/
def stepQuery (workspaceId currentParentId : Option String) : ListGroupsQuery :=
  listGroupsQuery
    { page := none, limit := none, workspaceId := workspaceId,
      parentId := currentParentId, search := none, sort := none }

/-- The body of the for-loop of `createGroupPath` (src/api/groups.ts lines
237-267): list the existing groups with `{ workspaceId, parentId:
currentParentId }` (an undefined `currentParentId` is dropped from the
query), reuse the first group whose name matches exactly, otherwise
create `{ name, workspaceId, parentId: currentParentId }`.  Any failure
is returned unchanged. -/
def cgpStep (groupName : String) (workspaceId : Option String)
    (currentParentId : Option String) (st : SrvState) :
    Except ApiErr Group × SrvState :=
  let r := srvList st (stepQuery workspaceId currentParentId)
  match r with
  | (.error e, st) => (.error e, st)
  | (.ok data, st) =>
      match data.find? (fun g => g.name == groupName) with
      | some g => (.ok g, st)
      | none =>
          let r2 := srvCreate st
            { name := groupName, workspaceId := workspaceId, parentId := currentParentId }
          match r2 with
          | (.error e, st) => (.error e, st)
          | (.ok g, st) => (.ok g, st)

/-- The for-loop of `createGroupPath`: thread `currentParentId` and the
accumulated groups, aborting on the first failure. -/
def cgpGo (workspaceId : Option String) :
    List String → Option String → List Group → SrvState →
    Except ApiErr (List Group) × SrvState
  | [], _, acc, st => (.ok acc, st)
  | n :: rest, cur, acc, st =>
      match cgpStep n workspaceId cur st with
      | (.error e, st) => (.error e, st)
      | (.ok g, st) => cgpGo workspaceId rest (some g.id) (acc ++ [g]) st

/-- `createGroupPath` (src/api/groups.ts lines 233-273). -/
def createGroupPath (path : List String) (workspaceId : Option String)
    (st : SrvState) : Except ApiErr (List Group) × SrvState :=
  cgpGo workspaceId path none [] st

/-- Number of create calls in a trace. -/
def createCount (trace : List SrvEvent) : Nat :=
  trace.countP (fun e => match e with | .create _ => true | .list _ => false)

/-- The list queries in a trace, in order. -/
def listQueries (trace : List SrvEvent) : List ListGroupsQuery :=
  trace.filterMap (fun e => match e with | .list q => some q | .create _ => none)

/-- The exact query `getGroupById` sends: `{ workspaceId, limit: 100 }`. -/
def byIdQuery (workspaceId : Option String) : ListGroupsQuery :=
  listGroupsQuery
    { page := none, limit := some 100, workspaceId := workspaceId,
      parentId := none, search := none, sort := none }

/-- `getGroupById` (src/api/groups.ts lines 92-107): one list call with
`{ workspaceId, limit: 100 }`, then `find` by id; a miss is Success with
`null` data (`group || null`). -/
def getGroupById (groupId : String) (workspaceId : Option String) (st : SrvState) :
    Except ApiErr (Option Group) × SrvState :=
  let r := srvList st (byIdQuery workspaceId)
  match r with
  | (.error e, st) => (.error e, st)
  | (.ok data, st) => (.ok (data.find? (fun g => g.id == groupId)), st)

/-! ## getAllGroupsInWorkspace (src/api/groups.ts lines 34-65)

The paginated fetch loop, parametrised by the per-page responses. -/

/-- One page of a list response: the items and, when the response carried
`meta.pagination`, its `totalPages`. -/
structure PageResp where
  data : List Group
  totalPages : Option Nat
deriving DecidableEq

/-- The while-loop: fetch the current page, append its items, and continue
while either pagination metadata is present and `page < totalPages`, or no
metadata is present and the page returned exactly 100 items.  Also counts
the page requests issued.  `none` means the fuel ran out first. -/
def fetchAllGo (fetch : Nat → Except ApiErr PageResp) :
    Nat → Nat → List Group → Nat → Option (Except ApiErr (List Group × Nat))
  | 0, _, _, _ => none
  | fuel + 1, page, acc, cnt =>
      match fetch page with
      | .error e => some (.error e)
      | .ok resp =>
          let acc2 := acc ++ resp.data
          let hasMore :=
            match resp.totalPages with
            | some tp => decide (page < tp)
            | none => resp.data.length == 100
          if hasMore then fetchAllGo fetch fuel (page + 1) acc2 (cnt + 1)
          else some (.ok (acc2, cnt + 1))

/-- `getAllGroupsInWorkspace`: start at page 1 with an empty accumulator. -/
def getAllGroupsInWorkspace (fetch : Nat → Except ApiErr PageResp) (fuel : Nat) :
    Option (Except ApiErr (List Group × Nat)) :=
  fetchAllGo fetch fuel 1 [] 0

/-- One page of `items`: 100 items per page, page numbers start at 1. -/
def pageSlice (items : List Group) (page : Nat) : List Group :=
  (items.drop ((page - 1) * 100)).take 100

/-- Modelled from the spec: a server paging `items` 100 at a time that
reports pagination metadata with `totalPages = ceil(total / 100)`. -/
def metaFetch (items : List Group) (page : Nat) : Except ApiErr PageResp :=
  .ok { data := pageSlice items page, totalPages := some ((items.length + 99) / 100) }

/-- Modelled from the spec: the same server when it omits pagination
metadata entirely. -/
def noMetaFetch (items : List Group) (page : Nat) : Except ApiErr PageResp :=
  .ok { data := pageSlice items page, totalPages := none }

/-! ## SidvyApiClient.request (src/api/client.ts lines 19-99) -/

/-- Parsed JSON values, as seen by `response.json()` and returned by the
client (the TypeScript return type is a cast, the runtime value is
whatever JSON came back). -/
inductive JVal where
  | jnull
  | jbool (b : Bool)
  | jnum (n : Int)
  | jstr (s : String)
  | jarr (elems : List JVal)
  | jobj (fields : List (String × JVal))

/-- JavaScript truthiness of a parsed JSON value. -/
def JVal.truthy : JVal → Bool
  | .jnull => false
  | .jbool b => b
  | .jnum n => !(n == 0)
  | .jstr s => !(s == "")
  | .jarr _ => true
  | .jobj _ => true

/-- Property access `v?.k`: a field of an object, `undefined` otherwise. -/
def JVal.getField : JVal → String → Option JVal
  | .jobj fields, k => (fields.find? (fun kv => kv.1 == k)).map (fun kv => kv.2)
  | _, _ => none

/-- What `await fetch(...)` followed by `response.json().catch(() => null)`
produced: a response (body is `jnull` when the body was missing, `null`, or
unparseable) or a thrown transport error (`isError` says whether the
thrown value was an `Error` instance). -/
inductive FetchOutcome where
  | resp (status : Nat) (statusText : String) (body : JVal)
  | exn (isError : Bool) (message : String)

/-- The local failure envelope the client synthesizes. -/
def errorEnvelope (code message : String) : JVal :=
  .jobj [("success", .jbool false),
         ("error", .jobj [("code", .jstr code), ("message", .jstr message)])]

/-- `SidvyApiClient.request`: on a thrown transport error return a
NETWORK_ERROR envelope; on a non-2xx response return the parsed body
unchanged when it is truthy and otherwise an HTTP_ERROR envelope; on a
2xx response wrap `responseData?.data || responseData || {}` (and the
body's `meta` field when present) in a success envelope. -/
def request : FetchOutcome → JVal
  | .exn isError msg =>
      errorEnvelope "NETWORK_ERROR"
        (if isError then msg else "Network or server error occurred")
  | .resp status statusText body =>
      if 200 ≤ status ∧ status ≤ 299 then
        let data :=
          match body.getField "data" with
          | some d => if d.truthy then d else if body.truthy then body else .jobj []
          | none => if body.truthy then body else .jobj []
        match body.getField "meta" with
        | some m => .jobj [("success", .jbool true), ("data", data), ("meta", m)]
        | none => .jobj [("success", .jbool true), ("data", data)]
      else
        if body.truthy then body
        else errorEnvelope "HTTP_ERROR" ("HTTP " ++ Nat.repr status ++ ": " ++ statusText)

/-- The Success variant of the tagged union. -/
def isSuccessEnvelope (v : JVal) : Bool :=
  match v.getField "success" with
  | some (.jbool true) => true
  | _ => false

/-- The Failure variant of the tagged union: `success: false` with a
structured `error: { code, message }`. -/
def isFailureEnvelope (v : JVal) : Bool :=
  match v.getField "success", v.getField "error" with
  | some (.jbool false), some e =>
      (match e.getField "code", e.getField "message" with
       | some (.jstr _), some (.jstr _) => true
       | _, _ => false)
  | _, _ => false

/-! ## NotesApi (getNoteById, appendToNote) and TodosApi (getTodoById)

The note and todo stores are remote; their list/update semantics are
modelled from the spec.  Transport failures are orthogonal to these
claims, so the stores here always answer. -/

/-- The `Note` record from `src/types.ts`. -/
structure Note where
  id : String
  name : String
  content : String
  userId : String
  workspaceId : String
  groupId : Option String
  isDeleted : Bool
  deletedAt : Option String
  deletedBy : Option String
  isEncrypted : Bool
  encryptionMetadata : Option String
  createdAt : String
  updatedAt : String
deriving DecidableEq

/-- The query getNoteById sends: `{ workspaceId, limit: 100 }` (the
workspaceId is dropped when undefined). -/
structure ListNotesQuery where
  workspaceId : Option String
  limit : Option Nat
deriving DecidableEq

/-- Modelled from the spec: a stored note matches the query when it agrees
with every present filter. -/
def matchesNotesQuery (q : ListNotesQuery) (n : Note) : Bool :=
  match q.workspaceId with
  | none => true
  | some w => n.workspaceId == w

/-- Modelled from the spec: GET /note — filter and truncate to the limit. -/
def srvListNotes (notes : List Note) (q : ListNotesQuery) : List Note :=
  applyLimit q.limit (notes.filter (matchesNotesQuery q))

/-- `getNoteById` (NotesApi lines 51-66): one list call with limit 100,
then `find` by id; a miss is Success with `null` data. -/
def getNoteById (noteId : String) (workspaceId : Option String)
    (notes : List Note) : Option Note :=
  (srvListNotes notes { workspaceId := workspaceId, limit := some 100 }).find?
    (fun n => n.id == noteId)

/-- Modelled from the spec: PUT /note with `{ id, content }` replaces the
stored note's content and returns the updated note. -/
def srvUpdateNote (notes : List Note) (noteId : String) (content : String) :
    Option Note × List Note :=
  match notes.find? (fun n => n.id == noteId) with
  | none => (none, notes)
  | some n =>
      (some { n with content := content },
       notes.map (fun m => if m.id == noteId then { m with content := content } else m))

/-- `appendToNote` (NotesApi lines 182-200): read the note via
`getNoteById`; when it is missing pass the soft miss through; otherwise
write back `currentNote.content + '\n\n' + additionalContent`
(unconditionally, also when the current content is empty). -/
def appendToNote (noteId : String) (additionalContent : String)
    (workspaceId : Option String) (notes : List Note) :
    Option Note × List Note :=
  match getNoteById noteId workspaceId notes with
  | none => (none, notes)
  | some current =>
      srvUpdateNote notes noteId (current.content ++ "\n\n" ++ additionalContent)

/-- The `Todo` record from `src/types.ts` (`lineNumber` is a number). -/
structure Todo where
  id : String
  text : String
  completed : Bool
  completedAt : Option String
  userId : String
  workspaceId : String
  noteId : String
  lineNumber : Nat
  isDeleted : Bool
  deletedAt : Option String
  deletedBy : Option String
  createdAt : String
  updatedAt : String
deriving DecidableEq

/-- The query getTodoById sends: `{ workspaceId, limit: 100 }`. -/
structure ListTodosQuery where
  workspaceId : Option String
  limit : Option Nat
deriving DecidableEq

/-- Modelled from the spec: a stored todo matches the query when it agrees
with every present filter. -/
def matchesTodosQuery (q : ListTodosQuery) (t : Todo) : Bool :=
  match q.workspaceId with
  | none => true
  | some w => t.workspaceId == w

/-- Modelled from the spec: GET /todo — filter and truncate to the limit. -/
def srvListTodos (todos : List Todo) (q : ListTodosQuery) : List Todo :=
  applyLimit q.limit (todos.filter (matchesTodosQuery q))

/-- `getTodoById` (TodosApi lines 92-107): one list call with limit 100,
then `find` by id; a miss is Success with `null` data. -/
def getTodoById (todoId : String) (workspaceId : Option String)
    (todos : List Todo) : Option Todo :=
  (srvListTodos todos { workspaceId := workspaceId, limit := some 100 }).find?
    (fun t => t.id == todoId)

/-! ## Derived observations on the tree builder -/

/-- Does this input entry get attached as a child of the node with id `p`
during the second pass of `buildGroupTree`?  Exactly when its truthy
`parentId` is `p` and `p` is in the lookup. -/
def attachesTo (groups : List Group) (g : Group) (p : String) : Bool :=
  match truthyParent g.parentId with
  | some q => q == p && (lookupNode groups q).isSome
  | none => false

/-- Does this input entry get pushed onto `rootGroups`?  Exactly when its
`parentId` is falsy. -/
def isRootEntry (g : Group) : Bool :=
  (truthyParent g.parentId).isNone

/-- Does processing this entry write its node's `level` and `path`?
Exactly when it is attached to a resolvable parent. -/
def writesEntry (groups : List Group) (g : Group) : Bool :=
  match truthyParent g.parentId with
  | some p => (lookupNode groups p).isSome
  | none => false

/-- Positional well-orderedness of the input: every entry whose truthy
`parentId` resolves in the input is preceded by an entry carrying that
parent id (`seen` accumulates the ids already passed). -/
def parentsFirstAux (groups : List Group) : List String → List Group → Bool
  | _, [] => true
  | seen, g :: rest =>
      (match truthyParent g.parentId with
       | some p => !(lookupNode groups p).isSome || seen.contains p
       | none => true)
      && parentsFirstAux groups (seen ++ [g.id]) rest

def parentsFirst (groups : List Group) : Bool :=
  parentsFirstAux groups [] groups

/-! ## Concrete fixtures used by counterexamples and witnesses -/

/-- An input exercising both defects of `buildGroupTree`: a child listed
before its grandparent chain, and an orphan whose parent is missing. -/
def cexChild : Group := ⟨"x", "X", "u", "w", some "b"⟩
def cexMid : Group := ⟨"b", "B", "u", "w", some "a"⟩
def cexOrphan : Group := ⟨"o", "O", "u", "w", some "zzz"⟩
def cexRoot : Group := ⟨"a", "A", "u", "w", none⟩
def cexInput : List Group := [cexChild, cexMid, cexOrphan, cexRoot]

/-- Two root groups sharing the name A. -/
def dupA1 : Group := ⟨"1", "A", "u", "w", none⟩
def dupA2 : Group := ⟨"2", "A", "u", "w", none⟩

/-- A well-ordered input with distinct names, for witnesses. -/
def wRoot : Group := ⟨"r", "Root", "u", "w", none⟩
def wKid : Group := ⟨"k", "Kid", "u", "w", some "r"⟩

/-- A self-parented group: the minimal cyclic snapshot. -/
def cycGroup : Group := ⟨"a", "A", "u", "w", some "a"⟩
def cycInput : List Group := [cycGroup]

/-- A store holding a nested group named A and a root named Root. -/
def nestedA : Group := ⟨"n1", "A", "u", "w", some "r1"⟩
def plainRoot : Group := ⟨"r1", "Root", "u", "w", none⟩
def nestedStore : SrvState := ⟨[nestedA, plainRoot], 0, [], []⟩

/-- An empty store with an all-success schedule. -/
def emptyStore : SrvState := ⟨[], 0, [], []⟩

/-- A store whose third call fails. -/
def failErr : ApiErr := ⟨"INTERNAL_ERROR", "boom"⟩
def failingStore : SrvState := ⟨[], 0, [none, none, some failErr], []⟩

/-- A note with empty content and a note with nonempty content. -/
def emptyNote : Note :=
  ⟨"n0", "note", "", "u", "w", none, false, none, none, false, none, "c", "t"⟩

def helloNote : Note :=
  ⟨"n1", "note", "hello", "u", "w", none, false, none, none, false, none, "c", "t"⟩

/-- 101 todos with ids 0 to 100: the last one is beyond the first 100. -/
def manyTodos : List Todo :=
  (List.range 101).map (fun i =>
    ⟨Nat.repr i, "t", false, none, "u", "w", "n", 0, false, none, none, "c", "t"⟩)

/-- 101 groups with ids 0 to 100, all in workspace w. -/
def manyGroups : List Group :=
  (List.range 101).map (fun i => ⟨Nat.repr i, "g", "u", "w", none⟩)

/-- A store holding the 101 groups. -/
def manyStore : SrvState := ⟨manyGroups, 0, [], []⟩

/-- 101 notes with ids 0 to 100. -/
def manyNotes : List Note :=
  (List.range 101).map (fun i =>
    ⟨Nat.repr i, "note", "c", "u", "w", none, false, none, none, false, none, "c", "t"⟩)

/-!
# Theorems

## Order facts about the sort comparator
-/

theorem charsLt_irrefl : ∀ a : List Char, charsLt a a = false
  | [] => rfl
  | x :: as => by
      simp only [charsLt, Bool.or_eq_false_iff, Bool.and_eq_false_iff]
      exact ⟨by simp, Or.inr (charsLt_irrefl as)⟩

theorem charsLt_asymm : ∀ {a b : List Char},
    charsLt a b = true → charsLt b a = true → False
  | [], [], h, _ => by simp [charsLt] at h
  | _ :: _, [], h, _ => by simp [charsLt] at h
  | [], _ :: _, _, h2 => by simp [charsLt] at h2
  | a :: as, b :: bs, h1, h2 => by
      simp only [charsLt, Bool.or_eq_true, Bool.and_eq_true, beq_iff_eq,
        decide_eq_true_eq] at h1 h2
      rcases h1 with h1 | ⟨he1, h1⟩
      · rcases h2 with h2 | ⟨he2, h2⟩
        · exact absurd h1 (not_lt.mpr h2.le)
        · exact absurd h1 (by simp [he2])
      · rcases h2 with h2 | ⟨_, h2⟩
        · exact absurd h2 (by simp [he1])
        · exact charsLt_asymm h1 h2

theorem charsLt_lt_of_lt_of_not_lt : ∀ {a b c : List Char},
    charsLt a b = true → charsLt c b = false → charsLt a c = true
  | [], [], _, h, _ => by simp [charsLt] at h
  | _ :: _, [], _, h, _ => by simp [charsLt] at h
  | [], _ :: _, [], _, h2 => by simp [charsLt] at h2
  | _ :: _, _ :: _, [], _, h2 => by simp [charsLt] at h2
  | [], _ :: _, _ :: _, _, _ => by simp [charsLt]
  | a :: as, b :: bs, z :: cs, h1, h2 => by
      simp only [charsLt, Bool.or_eq_true, Bool.and_eq_true, beq_iff_eq,
        decide_eq_true_eq, Bool.or_eq_false_iff, Bool.and_eq_false_iff,
        decide_eq_false_iff_not, beq_eq_false_iff_ne] at h1 h2 ⊢
      rcases h2 with ⟨hzb, h2⟩
      rcases h1 with h1 | ⟨he1, h1⟩
      · rcases lt_or_eq_of_le (not_lt.mp hzb) with hbz | hbz
        · exact Or.inl (h1.trans hbz)
        · exact Or.inl (hbz ▸ h1)
      · rcases lt_or_eq_of_le (not_lt.mp hzb) with hbz | hbz
        · exact Or.inl (he1 ▸ hbz)
        · rcases h2 with h2 | h2
          · exact absurd hbz.symm h2
          · exact Or.inr ⟨he1.trans hbz, charsLt_lt_of_lt_of_not_lt h1 h2⟩

theorem charsLt_connex : ∀ {a b : List Char},
    charsLt a b = false → charsLt b a = false → a = b
  | [], [], _, _ => rfl
  | _ :: _, [], _, h2 => by simp [charsLt] at h2
  | [], _ :: _, h1, _ => by simp [charsLt] at h1
  | a :: as, b :: bs, h1, h2 => by
      simp only [charsLt, Bool.or_eq_false_iff, Bool.and_eq_false_iff,
        decide_eq_false_iff_not, beq_eq_false_iff_ne] at h1 h2
      rcases h1 with ⟨hab, h1⟩
      rcases h2 with ⟨hba, h2⟩
      have he : a = b := le_antisymm (not_lt.mp hba) (not_lt.mp hab)
      subst he
      rcases h1 with h1 | h1
      · exact absurd rfl h1
      · rcases h2 with h2 | h2
        · exact absurd rfl h2
        · rw [charsLt_connex h1 h2]

theorem strLeB_refl (a : String) : strLeB a a = true := by
  simp [strLeB, charsLt_irrefl]

theorem strLeB_total (a b : String) : strLeB a b = true ∨ strLeB b a = true := by
  simp only [strLeB, Bool.not_eq_true', Bool.not_eq_false]
  cases h1 : charsLt b.data a.data with
  | false => exact Or.inl rfl
  | true =>
      cases h2 : charsLt a.data b.data with
      | false => exact Or.inr rfl
      | true => exact absurd (charsLt_asymm h1 h2) (fun x => x)

theorem strLeB_trans {a b c : String} (h1 : strLeB a b = true)
    (h2 : strLeB b c = true) : strLeB a c = true := by
  simp only [strLeB, Bool.not_eq_true'] at h1 h2 ⊢
  cases h3 : charsLt c.data a.data with
  | false => rfl
  | true => exact absurd (charsLt_lt_of_lt_of_not_lt h3 h1) (by simp [h2])

theorem strLeB_antisymm {a b : String} (h1 : strLeB a b = true)
    (h2 : strLeB b a = true) : a = b := by
  simp only [strLeB, Bool.not_eq_true'] at h1 h2
  exact String.ext (charsLt_connex h2 h1)

/-! ## Lookup facts -/

theorem find?_eq_of_perm_of_unique {α : Type} {p : α → Bool} {l₁ l₂ : List α}
    (hperm : l₁.Perm l₂)
    (huniq : ∀ a ∈ l₁, ∀ b ∈ l₁, p a = true → p b = true → a = b) :
    l₁.find? p = l₂.find? p := by
  cases h1 : l₁.find? p with
  | none =>
      cases h2 : l₂.find? p with
      | none => rfl
      | some b =>
          have hb := hperm.symm.subset (List.mem_of_find?_eq_some h2)
          have hpb := List.find?_some h2
          have := List.find?_eq_none.mp h1 b hb
          simp [hpb] at this
  | some a =>
      have ha := List.mem_of_find?_eq_some h1
      have hpa := List.find?_some h1
      cases h2 : l₂.find? p with
      | none =>
          have := List.find?_eq_none.mp h2 a (hperm.subset ha)
          simp [hpa] at this
      | some b =>
          have hb := hperm.symm.subset (List.mem_of_find?_eq_some h2)
          have hpb := List.find?_some h2
          rw [huniq a ha b hb hpa hpb]

theorem lookupNode_eq_find? {groups : List Group}
    (hnd : (groups.map Group.id).Nodup) (i : String) :
    lookupNode groups i = groups.find? (fun g => g.id == i) := by
  unfold lookupNode
  refine find?_eq_of_perm_of_unique (List.reverse_perm groups) ?_
  intro a ha b hb hpa hpb
  rw [List.mem_reverse] at ha hb
  have hai : a.id = i := by simpa using hpa
  have hbi : b.id = i := by simpa using hpb
  exact List.inj_on_of_nodup_map hnd ha hb (hai.trans hbi.symm)

theorem lookupNode_self {groups : List Group} (hnd : (groups.map Group.id).Nodup)
    {g : Group} (hg : g ∈ groups) : lookupNode groups g.id = some g := by
  rw [lookupNode_eq_find? hnd]
  cases h : groups.find? (fun x => x.id == g.id) with
  | none =>
      have := List.find?_eq_none.mp h g hg
      simp at this
  | some b =>
      have hb := List.mem_of_find?_eq_some h
      have hpb : b.id = g.id := by simpa using List.find?_some h
      rw [List.inj_on_of_nodup_map hnd hb hg hpb]

theorem lookupNode_perm {l₁ l₂ : List Group} (hperm : l₁.Perm l₂)
    (hnd : (l₁.map Group.id).Nodup) (i : String) :
    lookupNode l₁ i = lookupNode l₂ i := by
  have hnd₂ : (l₂.map Group.id).Nodup := ((hperm.map Group.id).nodup_iff).mp hnd
  rw [lookupNode_eq_find? hnd, lookupNode_eq_find? hnd₂]
  refine find?_eq_of_perm_of_unique hperm ?_
  intro a ha b hb hpa hpb
  have hai : a.id = i := by simpa using hpa
  have hbi : b.id = i := by simpa using hpb
  exact List.inj_on_of_nodup_map hnd ha hb (hai.trans hbi.symm)

theorem getGroup_id (groups : List Group) (i : String) :
    (getGroup groups i).id = i := by
  unfold getGroup lookupNode
  cases h : groups.reverse.find? (fun g => g.id == i) with
  | none => rfl
  | some g => simpa using List.find?_some h

theorem getGroup_mem_of_lookup {groups : List Group} {i : String} {g : Group}
    (h : lookupNode groups i = some g) : g ∈ groups ∧ getGroup groups i = g := by
  constructor
  · have := List.mem_of_find?_eq_some h
    rwa [List.mem_reverse] at this
  · unfold getGroup
    rw [h]
    rfl

/-! ## Closed forms for the attachment state -/

theorem attachStep_children (groups : List Group) (st : TState) (g : Group)
    (p : String) :
    (attachStep groups st g).children p
      = st.children p ++ (if attachesTo groups g p then [g.id] else []) := by
  unfold attachStep attachesTo
  cases h : truthyParent g.parentId with
  | none => simp
  | some q =>
      cases h2 : lookupNode groups q with
      | none => simp [h2]
      | some pg =>
          simp only [h2, Option.isSome_some, Bool.and_true]
          by_cases hpq : p = q
          · subst hpq
            simp
          · simp [hpq, Ne.symm hpq]

theorem attachStep_roots (groups : List Group) (st : TState) (g : Group) :
    (attachStep groups st g).roots
      = st.roots ++ (if isRootEntry g then [g.id] else []) := by
  unfold attachStep isRootEntry
  cases h : truthyParent g.parentId with
  | none => simp
  | some q =>
      cases h2 : lookupNode groups q with
      | none => simp [h, h2]
      | some pg => simp [h, h2]

theorem attachStep_level_ne (groups : List Group) (st : TState) (g : Group)
    {x : String} (hx : x ≠ g.id) :
    (attachStep groups st g).level x = st.level x := by
  unfold attachStep
  cases h : truthyParent g.parentId with
  | none => rfl
  | some q =>
      cases h2 : lookupNode groups q with
      | none => simp [h2]
      | some pg => simp [h2, hx]

theorem attachStep_path_ne (groups : List Group) (st : TState) (g : Group)
    {x : String} (hx : x ≠ g.id) :
    (attachStep groups st g).path x = st.path x := by
  unfold attachStep
  cases h : truthyParent g.parentId with
  | none => rfl
  | some q =>
      cases h2 : lookupNode groups q with
      | none => simp [h2]
      | some pg => simp [h2, hx]

theorem attachStep_unwritten (groups : List Group) (st : TState) (g : Group)
    (h : writesEntry groups g = false) :
    (attachStep groups st g).level = st.level
      ∧ (attachStep groups st g).path = st.path := by
  unfold attachStep
  unfold writesEntry at h
  cases ht : truthyParent g.parentId with
  | none => exact ⟨rfl, rfl⟩
  | some q =>
      rw [ht] at h
      have h' : (lookupNode groups q).isSome = false := by simpa using h
      cases h2 : lookupNode groups q with
      | none => simp [h2]
      | some pg => rw [h2] at h'; simp at h'

theorem foldl_children (groups : List Group) :
    ∀ (l : List Group) (st : TState) (p : String),
    (l.foldl (attachStep groups) st).children p
      = st.children p ++ (l.filter (fun g => attachesTo groups g p)).map Group.id
  | [], st, p => by simp
  | g :: rest, st, p => by
      rw [List.foldl_cons, foldl_children groups rest _ p, attachStep_children]
      cases h : attachesTo groups g p with
      | false => simp [List.filter_cons, h]
      | true => simp [List.filter_cons, h]

theorem foldl_roots (groups : List Group) :
    ∀ (l : List Group) (st : TState),
    (l.foldl (attachStep groups) st).roots
      = st.roots ++ (l.filter isRootEntry).map Group.id
  | [], st => by simp
  | g :: rest, st => by
      rw [List.foldl_cons, foldl_roots groups rest _, attachStep_roots]
      cases h : isRootEntry g with
      | false => simp [List.filter_cons, h]
      | true => simp [List.filter_cons, h]

theorem buildState_children (groups : List Group) (p : String) :
    (buildState groups).children p
      = (groups.filter (fun g => attachesTo groups g p)).map Group.id := by
  unfold buildState
  rw [foldl_children]
  rfl

theorem buildState_roots (groups : List Group) :
    (buildState groups).roots = (groups.filter isRootEntry).map Group.id := by
  unfold buildState
  rw [foldl_roots]
  rfl

theorem foldl_levelPath_ne (groups : List Group) :
    ∀ (l : List Group) (st : TState) {x : String}, x ∉ l.map Group.id →
    (l.foldl (attachStep groups) st).level x = st.level x
      ∧ (l.foldl (attachStep groups) st).path x = st.path x
  | [], _, _, _ => ⟨rfl, rfl⟩
  | g :: rest, st, x, hx => by
      rw [List.map_cons, List.mem_cons] at hx
      push_neg at hx
      rw [List.foldl_cons]
      have ih := foldl_levelPath_ne groups rest (attachStep groups st g) hx.2
      rw [ih.1, ih.2, attachStep_level_ne groups st g hx.1,
        attachStep_path_ne groups st g hx.1]
      exact ⟨rfl, rfl⟩

theorem foldl_levelPath_unwritten (groups : List Group) :
    ∀ (l : List Group) (st : TState) {x : String},
    (∀ g ∈ l, g.id = x → writesEntry groups g = false) →
    (l.foldl (attachStep groups) st).level x = st.level x
      ∧ (l.foldl (attachStep groups) st).path x = st.path x
  | [], _, _, _ => ⟨rfl, rfl⟩
  | g :: rest, st, x, hx => by
      rw [List.foldl_cons]
      have ih := foldl_levelPath_unwritten groups rest (attachStep groups st g)
        (fun h hm he => hx h (List.mem_cons_of_mem g hm) he)
      rw [ih.1, ih.2]
      by_cases hgx : g.id = x
      · have hw := hx g (List.mem_cons_self g rest) hgx
        have := attachStep_unwritten groups st g hw
        rw [this.1, this.2]
        exact ⟨rfl, rfl⟩
      · rw [attachStep_level_ne groups st g (fun h => hgx h.symm),
          attachStep_path_ne groups st g (fun h => hgx h.symm)]
        exact ⟨rfl, rfl⟩

theorem foldl_level_le (groups : List Group) :
    ∀ (l : List Group) (st : TState) (B : Nat), (∀ x, st.level x ≤ B) →
    ∀ x, (l.foldl (attachStep groups) st).level x ≤ B + l.length
  | [], _, _, hB, x => by simpa using hB x
  | g :: rest, st, B, hB, x => by
      rw [List.foldl_cons]
      have hstep : ∀ y, (attachStep groups st g).level y ≤ B + 1 := by
        intro y
        unfold attachStep
        cases h : truthyParent g.parentId with
        | none => exact (hB y).trans (Nat.le_succ B)
        | some q =>
            cases h2 : lookupNode groups q with
            | none =>
                simp only [h2]
                exact (hB y).trans (Nat.le_succ B)
            | some pg =>
                simp only [h2]
                by_cases hy : y = g.id
                · simp only [hy, if_pos rfl]
                  exact Nat.succ_le_succ (hB q)
                · simp only [if_neg hy]
                  exact (hB y).trans (Nat.le_succ B)
      have := foldl_level_le groups rest (attachStep groups st g) (B + 1) hstep x
      simpa [Nat.add_assoc, Nat.add_comm 1 rest.length] using this

theorem buildState_level_le (groups : List Group) (x : String) :
    (buildState groups).level x ≤ groups.length := by
  have := foldl_level_le groups groups initTState 0 (fun _ => Nat.le_refl 0) x
  simpa using this

/-! ## Entry facts -/

theorem attachesTo_iff {groups : List Group} {g : Group} {p : String} :
    attachesTo groups g p = true
      ↔ truthyParent g.parentId = some p ∧ (lookupNode groups p).isSome = true := by
  unfold attachesTo
  cases hts : truthyParent g.parentId with
  | none => simp
  | some q =>
      simp only [Bool.and_eq_true, beq_iff_eq, Option.some.injEq]
      constructor
      · rintro ⟨rfl, h⟩
        exact ⟨rfl, h⟩
      · rintro ⟨rfl, h⟩
        exact ⟨rfl, h⟩

theorem isRootEntry_iff {g : Group} :
    isRootEntry g = true ↔ truthyParent g.parentId = none := by
  unfold isRootEntry
  cases h : truthyParent g.parentId <;> simp

theorem writesEntry_false_of_root {groups : List Group} {g : Group}
    (h : isRootEntry g = true) : writesEntry groups g = false := by
  unfold writesEntry
  rw [isRootEntry_iff.mp h]

/-! ## parentsFirst extraction -/

theorem parentsFirstAux_mem (groups : List Group) :
    ∀ (pre : List Group) (seen : List String) (g : Group) (post : List Group),
    parentsFirstAux groups seen (pre ++ g :: post) = true →
    ∀ p, truthyParent g.parentId = some p → (lookupNode groups p).isSome = true →
    p ∈ seen ++ pre.map Group.id
  | [], seen, g, post, h, p, hts, hlk => by
      rw [List.nil_append] at h
      unfold parentsFirstAux at h
      rw [Bool.and_eq_true] at h
      have h1 := h.1
      rw [hts] at h1
      simp only [hlk, Bool.not_true, Bool.false_or] at h1
      simpa using h1
  | hpre :: pre, seen, g, post, h, p, hts, hlk => by
      rw [List.cons_append] at h
      unfold parentsFirstAux at h
      rw [Bool.and_eq_true] at h
      have := parentsFirstAux_mem groups pre (seen ++ [hpre.id]) g post h.2 p hts hlk
      simpa [List.append_assoc] using this

theorem parentsFirst_mem {pre post : List Group} {g : Group}
    (hpf : parentsFirst (pre ++ g :: post) = true) {p : String}
    (hts : truthyParent g.parentId = some p)
    (hlk : (lookupNode (pre ++ g :: post) p).isSome = true) :
    p ∈ pre.map Group.id := by
  have := parentsFirstAux_mem (pre ++ g :: post) pre [] g post hpf p hts hlk
  simpa using this

/-! ## Final level and path values -/

theorem attachStep_write (groups : List Group) (st : TState) (g : Group)
    {p : String} {pg : Group} (hts : truthyParent g.parentId = some p)
    (hlk : lookupNode groups p = some pg) :
    (attachStep groups st g).level g.id = st.level p + 1
      ∧ (attachStep groups st g).path g.id = st.path p ++ [pg.name] := by
  unfold attachStep
  simp only [hts, hlk, if_pos rfl]
  exact ⟨rfl, rfl⟩

theorem buildState_level_path {groups : List Group}
    (hnd : (groups.map Group.id).Nodup) (hpf : parentsFirst groups = true) :
    ∀ g ∈ groups, ∀ p pg, truthyParent g.parentId = some p →
    lookupNode groups p = some pg →
    (buildState groups).level g.id = (buildState groups).level p + 1
      ∧ (buildState groups).path g.id = (buildState groups).path p ++ [pg.name] := by
  intro g hg p pg hts hlk
  obtain ⟨pre, post, hsplit⟩ := List.append_of_mem hg
  subst hsplit
  have hpmem : p ∈ pre.map Group.id :=
    parentsFirst_mem hpf hts (by rw [hlk]; rfl)
  have hnd' : (pre.map Group.id ++ g.id :: post.map Group.id).Nodup := by
    simpa using hnd
  rw [List.nodup_append] at hnd'
  obtain ⟨hndPre, hndCons, hdisj⟩ := hnd'
  have hgid_pre : g.id ∉ pre.map Group.id :=
    fun hmem => (hdisj hmem) (List.mem_cons_self _ _)
  have hp_ne : p ≠ g.id := fun he => hgid_pre (he ▸ hpmem)
  have hp_not_post : p ∉ post.map Group.id :=
    fun hmem => (hdisj hpmem) (List.mem_cons_of_mem _ hmem)
  have hgid_not_post : g.id ∉ post.map Group.id := (List.nodup_cons.mp hndCons).1
  have hfold : buildState (pre ++ g :: post)
      = (g :: post).foldl (attachStep (pre ++ g :: post))
          (pre.foldl (attachStep (pre ++ g :: post)) initTState) := by
    unfold buildState
    rw [List.foldl_append]
  have hAp : (buildState (pre ++ g :: post)).level p
        = (pre.foldl (attachStep (pre ++ g :: post)) initTState).level p
      ∧ (buildState (pre ++ g :: post)).path p
        = (pre.foldl (attachStep (pre ++ g :: post)) initTState).path p := by
    rw [hfold, List.foldl_cons]
    have hstab := foldl_levelPath_ne (pre ++ g :: post) post
      (attachStep (pre ++ g :: post)
        (List.foldl (attachStep (pre ++ g :: post)) initTState pre) g)
      hp_not_post
    rw [hstab.1, hstab.2, attachStep_level_ne _ _ g hp_ne, attachStep_path_ne _ _ g hp_ne]
    exact ⟨rfl, rfl⟩
  have hAg : (buildState (pre ++ g :: post)).level g.id
        = (pre.foldl (attachStep (pre ++ g :: post)) initTState).level p + 1
      ∧ (buildState (pre ++ g :: post)).path g.id
        = (pre.foldl (attachStep (pre ++ g :: post)) initTState).path p ++ [pg.name] := by
    rw [hfold, List.foldl_cons]
    have hstab := foldl_levelPath_ne (pre ++ g :: post) post
      (attachStep (pre ++ g :: post)
        (List.foldl (attachStep (pre ++ g :: post)) initTState pre) g)
      hgid_not_post
    have hw := attachStep_write (pre ++ g :: post)
      (List.foldl (attachStep (pre ++ g :: post)) initTState pre) g hts hlk
    rw [hstab.1, hstab.2, hw.1, hw.2]
    exact ⟨rfl, rfl⟩
  exact ⟨by rw [hAg.1, hAp.1], by rw [hAg.2, hAp.2]⟩

/-! ## Facts about children, roots and orphans -/

theorem mem_children_iff {groups : List Group} {q x : String} :
    x ∈ (buildState groups).children q
      ↔ ∃ g ∈ groups, g.id = x ∧ attachesTo groups g q = true := by
  rw [buildState_children, List.mem_map]
  constructor
  · rintro ⟨g, hgf, rfl⟩
    have := List.mem_filter.mp hgf
    exact ⟨g, this.1, rfl, this.2⟩
  · rintro ⟨g, hgm, rfl, hat⟩
    exact ⟨g, List.mem_filter.mpr ⟨hgm, hat⟩, rfl⟩

theorem mem_roots_iff {groups : List Group} {x : String} :
    x ∈ (buildState groups).roots
      ↔ ∃ g ∈ groups, g.id = x ∧ isRootEntry g = true := by
  rw [buildState_roots, List.mem_map]
  constructor
  · rintro ⟨g, hgf, rfl⟩
    have := List.mem_filter.mp hgf
    exact ⟨g, this.1, rfl, this.2⟩
  · rintro ⟨g, hgm, rfl, hat⟩
    exact ⟨g, List.mem_filter.mpr ⟨hgm, hat⟩, rfl⟩

theorem children_level {groups : List Group}
    (hnd : (groups.map Group.id).Nodup) (hpf : parentsFirst groups = true)
    {q c : String} (hc : c ∈ (buildState groups).children q) :
    (buildState groups).level c = (buildState groups).level q + 1 := by
  obtain ⟨g, hgm, rfl, hat⟩ := mem_children_iff.mp hc
  obtain ⟨hts, hlk⟩ := attachesTo_iff.mp hat
  obtain ⟨pg, hpg⟩ := Option.isSome_iff_exists.mp hlk
  exact (buildState_level_path hnd hpf g hgm q pg hts hpg).1

theorem children_unique {groups : List Group}
    (hnd : (groups.map Group.id).Nodup) {x q1 q2 : String}
    (h1 : x ∈ (buildState groups).children q1)
    (h2 : x ∈ (buildState groups).children q2) : q1 = q2 := by
  obtain ⟨g1, hm1, hid1, hat1⟩ := mem_children_iff.mp h1
  obtain ⟨g2, hm2, hid2, hat2⟩ := mem_children_iff.mp h2
  have : g1 = g2 := List.inj_on_of_nodup_map hnd hm1 hm2 (hid1.trans hid2.symm)
  subst this
  obtain ⟨hts1, _⟩ := attachesTo_iff.mp hat1
  obtain ⟨hts2, _⟩ := attachesTo_iff.mp hat2
  rw [hts1] at hts2
  exact Option.some.inj hts2

theorem roots_level {groups : List Group}
    (hnd : (groups.map Group.id).Nodup) {r : String}
    (hr : r ∈ (buildState groups).roots) :
    (buildState groups).level r = 0 ∧ (buildState groups).path r = [] := by
  obtain ⟨g, hgm, rfl, hroot⟩ := mem_roots_iff.mp hr
  have hunw : ∀ h ∈ groups, h.id = g.id → writesEntry groups h = false := by
    intro h hh he
    have : h = g := List.inj_on_of_nodup_map hnd hh hgm he
    subst this
    exact writesEntry_false_of_root hroot
  have := foldl_levelPath_unwritten groups groups initTState hunw
  unfold buildState
  exact this

theorem attached_not_root {groups : List Group}
    (hnd : (groups.map Group.id).Nodup) {g : Group} (hg : g ∈ groups)
    {p : String} (hts : truthyParent g.parentId = some p) :
    g.id ∉ (buildState groups).roots := by
  intro hmem
  obtain ⟨h, hhm, hhe, hroot⟩ := mem_roots_iff.mp hmem
  have : h = g := List.inj_on_of_nodup_map hnd hhm hg hhe
  subst this
  rw [isRootEntry_iff.mp hroot] at hts
  exact Option.noConfusion hts

theorem orphan_unattached {groups : List Group}
    (hnd : (groups.map Group.id).Nodup) {g : Group} (hg : g ∈ groups)
    {p : String} (hts : truthyParent g.parentId = some p)
    (hlk : lookupNode groups p = none) :
    (∀ q, g.id ∉ (buildState groups).children q)
      ∧ g.id ∉ (buildState groups).roots := by
  constructor
  · intro q hmem
    obtain ⟨h, hhm, hhe, hat⟩ := mem_children_iff.mp hmem
    have : h = g := List.inj_on_of_nodup_map hnd hhm hg hhe
    subst this
    obtain ⟨hts2, hlk2⟩ := attachesTo_iff.mp hat
    rw [hts] at hts2
    obtain rfl := Option.some.inj hts2
    rw [hlk] at hlk2
    exact Bool.noConfusion hlk2
  · exact attached_not_root hnd hg hts

/-! ## Forest membership -/

theorem mem_nodeIdsList {x : String} :
    ∀ {l : List GTNode}, x ∈ nodeIdsList l ↔ ∃ n ∈ l, x ∈ nodeIds n
  | [] => by simp [nodeIdsList]
  | n :: ns => by
      simp only [nodeIdsList, List.mem_append, mem_nodeIdsList (l := ns)]
      constructor
      · rintro (h | ⟨m, hm, hx⟩)
        · exact ⟨n, List.mem_cons_self n ns, h⟩
        · exact ⟨m, List.mem_cons_of_mem n hm, hx⟩
      · rintro ⟨m, hm, hx⟩
        rcases List.mem_cons.mp hm with rfl | hm
        · exact Or.inl hx
        · exact Or.inr ⟨m, hm, hx⟩

theorem self_mem_nodeIds (groups : List Group) (st : TState) :
    ∀ (fuel : Nat) (i : String), i ∈ nodeIds (buildNode groups st fuel i)
  | 0, i => by simp [buildNode, nodeIds, getGroup_id]
  | fuel + 1, i => by simp [buildNode, nodeIds, getGroup_id]

theorem mem_nodeIds_of_child {groups : List Group} {st : TState}
    {c i x : String} (hc : c ∈ st.children i) {fuel : Nat}
    (hx : x ∈ nodeIds (buildNode groups st fuel c)) :
    x ∈ nodeIds (buildNode groups st (fuel + 1) i) := by
  simp only [buildNode, nodeIds]
  rw [List.mem_cons]
  right
  rw [mem_nodeIdsList]
  refine ⟨buildNode groups st fuel c, ?_, hx⟩
  exact List.mem_map_of_mem _ (((List.perm_insertionSort _ _).mem_iff).mpr hc)

theorem mem_nodeIds_zero {groups : List Group} {st : TState} {i x : String}
    (hx : x ∈ nodeIds (buildNode groups st 0 i)) : x = i := by
  simp [buildNode, nodeIds, nodeIdsList, getGroup_id] at hx
  exact hx

theorem mem_nodeIds_inv {groups : List Group} {st : TState} {fuel : Nat}
    {i x : String} (hx : x ∈ nodeIds (buildNode groups st (fuel + 1) i)) :
    x = i ∨ ∃ c ∈ st.children i, x ∈ nodeIds (buildNode groups st fuel c) := by
  simp only [buildNode, nodeIds] at hx
  rw [List.mem_cons] at hx
  rcases hx with hx | hx
  · left
    rw [hx, getGroup_id]
  · right
    rw [mem_nodeIdsList] at hx
    obtain ⟨n, hn, hxn⟩ := hx
    obtain ⟨c, hc, rfl⟩ := List.mem_map.mp hn
    exact ⟨c, ((List.perm_insertionSort _ _).mem_iff).mp hc, hxn⟩

theorem not_mem_nodeIds_of_unattached {groups : List Group} {st : TState}
    {x : String} (hun : ∀ q, x ∉ st.children q) :
    ∀ (fuel : Nat) (i : String), i ≠ x →
    x ∉ nodeIds (buildNode groups st fuel i)
  | 0, _, hne, hx => hne (mem_nodeIds_zero hx).symm
  | fuel + 1, i, hne, hx => by
      rcases mem_nodeIds_inv hx with h | ⟨c, hc, hxc⟩
      · exact hne h.symm
      · have hcx : c ≠ x := fun he => hun i (he ▸ hc)
        exact not_mem_nodeIds_of_unattached hun fuel c hcx hxc

theorem child_mem_nodeIds {groups : List Group}
    (hnd : (groups.map Group.id).Nodup) (hpf : parentsFirst groups = true)
    {gc p : String} (hgc : gc ∈ (buildState groups).children p) :
    ∀ (fuel : Nat) (i : String),
    fuel + (buildState groups).level i = groups.length + 1 →
    p ∈ nodeIds (buildNode groups (buildState groups) fuel i) →
    gc ∈ nodeIds (buildNode groups (buildState groups) fuel i)
  | 0, i, hinv, _ => by
      exfalso
      have := buildState_level_le groups i
      omega
  | fuel + 1, i, hinv, hp => by
      rcases mem_nodeIds_inv hp with h | ⟨c, hc, hpc⟩
      · exact mem_nodeIds_of_child (h ▸ hgc) (self_mem_nodeIds groups _ fuel gc)
      · have hlev := children_level hnd hpf hc
        have hinv' : fuel + (buildState groups).level c = groups.length + 1 := by
          omega
        exact mem_nodeIds_of_child hc (child_mem_nodeIds hnd hpf hgc fuel c hinv' hpc)

theorem parent_mem_nodeIds {groups : List Group}
    (hnd : (groups.map Group.id).Nodup) {gc p : String}
    (hgc : gc ∈ (buildState groups).children p) :
    ∀ (fuel : Nat) (i : String), i ≠ gc →
    gc ∈ nodeIds (buildNode groups (buildState groups) fuel i) →
    p ∈ nodeIds (buildNode groups (buildState groups) fuel i)
  | 0, _, hne, hx => absurd (mem_nodeIds_zero hx).symm hne
  | fuel + 1, i, hne, hx => by
      rcases mem_nodeIds_inv hx with h | ⟨c, hc, hxc⟩
      · exact absurd h.symm hne
      · by_cases hcgc : c = gc
        · subst hcgc
          have : i = p := children_unique hnd hc hgc
          subst this
          exact self_mem_nodeIds groups _ (fuel + 1) i
        · exact mem_nodeIds_of_child hc (parent_mem_nodeIds hnd hgc fuel c hcgc hxc)

theorem mem_forestIds_intro {groups : List Group} {r x : String}
    (hr : r ∈ (buildState groups).roots)
    (hx : x ∈ nodeIds (buildNode groups (buildState groups) (groups.length + 1) r)) :
    x ∈ forestIds (buildGroupTree groups) := by
  unfold forestIds buildGroupTree
  rw [mem_nodeIdsList]
  exact ⟨_, List.mem_map_of_mem _ (((List.perm_insertionSort _ _).mem_iff).mpr hr), hx⟩

theorem mem_forestIds_elim {groups : List Group} {x : String}
    (hx : x ∈ forestIds (buildGroupTree groups)) :
    ∃ r ∈ (buildState groups).roots,
      x ∈ nodeIds (buildNode groups (buildState groups) (groups.length + 1) r) := by
  unfold forestIds buildGroupTree at hx
  rw [mem_nodeIdsList] at hx
  obtain ⟨n, hn, hxn⟩ := hx
  obtain ⟨r, hr, rfl⟩ := List.mem_map.mp hn
  exact ⟨r, ((List.perm_insertionSort _ _).mem_iff).mp hr, hxn⟩

/-! ## Claim C1 -/

/-- C1 (corrected).  As stated the claim fails: `buildGroupTree` drops a
group whose `parentId` is absent from the input (it is neither attached
nor made a root), and it reads the parent's *current* `level`/`path`, so
a child processed before its ancestors gets a wrong depth.  Amended claim,
proved here: for inputs with pairwise-distinct ids in which every group
occurs after its resolvable parent, each group whose truthy `parentId`
exists in the lookup is attached as a child of that parent with
depth = parent depth + 1 and ancestorNames = parent ancestorNames plus the
parent's name, and it appears in the output forest exactly when its parent
does; each group with a falsy `parentId` is a forest root and appears in
the forest; each group whose `parentId` does not resolve appears nowhere
in the output forest. -/
theorem C1_buildGroupTree_amended (groups : List Group)
    (hnd : (groups.map Group.id).Nodup) (hpf : parentsFirst groups = true) :
    ∀ g ∈ groups,
      (∀ p, truthyParent g.parentId = some p →
        (∀ pg, lookupNode groups p = some pg →
          g.id ∈ (buildState groups).children p
            ∧ (buildState groups).level g.id = (buildState groups).level p + 1
            ∧ (buildState groups).path g.id
                = (buildState groups).path p ++ [pg.name]
            ∧ (g.id ∈ forestIds (buildGroupTree groups)
                ↔ p ∈ forestIds (buildGroupTree groups)))
        ∧ (lookupNode groups p = none →
            g.id ∉ forestIds (buildGroupTree groups)))
      ∧ (truthyParent g.parentId = none →
          g.id ∈ (buildState groups).roots
            ∧ g.id ∈ forestIds (buildGroupTree groups)) := by
  intro g hg
  constructor
  · intro p hts
    constructor
    · intro pg hpg
      have hchild : g.id ∈ (buildState groups).children p :=
        mem_children_iff.mpr ⟨g, hg, rfl, attachesTo_iff.mpr ⟨hts, by rw [hpg]; rfl⟩⟩
      have hlp := buildState_level_path hnd hpf g hg p pg hts hpg
      refine ⟨hchild, hlp.1, hlp.2, ?_, ?_⟩
      · intro hgf
        obtain ⟨r, hr, hx⟩ := mem_forestIds_elim hgf
        have hne : r ≠ g.id := by
          intro he
          exact attached_not_root hnd hg hts (he ▸ hr)
        exact mem_forestIds_intro hr
          (parent_mem_nodeIds hnd hchild (groups.length + 1) r hne hx)
      · intro hpf2
        obtain ⟨r, hr, hx⟩ := mem_forestIds_elim hpf2
        have hr0 := (roots_level hnd hr).1
        have hinv : (groups.length + 1) + (buildState groups).level r
            = groups.length + 1 := by omega
        exact mem_forestIds_intro hr
          (child_mem_nodeIds hnd hpf hchild (groups.length + 1) r hinv hx)
    · intro hlk hgf
      obtain ⟨hun, hnr⟩ := orphan_unattached hnd hg hts hlk
      obtain ⟨r, hr, hx⟩ := mem_forestIds_elim hgf
      have hne : r ≠ g.id := fun he => hnr (he ▸ hr)
      exact not_mem_nodeIds_of_unattached hun (groups.length + 1) r hne hx
  · intro hts
    have hroot : g.id ∈ (buildState groups).roots :=
      mem_roots_iff.mpr ⟨g, hg, rfl, isRootEntry_iff.mpr hts⟩
    exact ⟨hroot, mem_forestIds_intro hroot
      (self_mem_nodeIds groups (buildState groups) (groups.length + 1) g.id)⟩

/-- C1 counterexample: on the input `[X(parent b), B(parent a),
O(parent zzz), A(root)]` the orphan O is dropped from the forest instead
of becoming a root, and X — processed before its parent chain — gets
depth 1 although its parent B also has depth 1 (so depth of X is not
parent depth + 1, which would be 2). -/
theorem C1_buildGroupTree_cex :
    cexOrphan ∈ cexInput
      ∧ truthyParent cexOrphan.parentId = some "zzz"
      ∧ lookupNode cexInput "zzz" = none
      ∧ "o" ∉ forestIds (buildGroupTree cexInput)
      ∧ truthyParent cexChild.parentId = some "b"
      ∧ lookupNode cexInput "b" = some cexMid
      ∧ (buildState cexInput).level "x" = 1
      ∧ (buildState cexInput).level "b" = 1 := by
  decide

/-- C1 witness: the amended claim applied to the concrete well-ordered
input `[Root, Kid]`. -/
theorem C1_buildGroupTree_witness :
    (([wRoot, wKid].map Group.id).Nodup ∧ parentsFirst [wRoot, wKid] = true)
      ∧ "k" ∈ (buildState [wRoot, wKid]).children "r"
      ∧ (buildState [wRoot, wKid]).level "k"
          = (buildState [wRoot, wKid]).level "r" + 1
      ∧ (buildState [wRoot, wKid]).path "k"
          = (buildState [wRoot, wKid]).path "r" ++ ["Root"]
      ∧ ("k" ∈ forestIds (buildGroupTree [wRoot, wKid])
          ↔ "r" ∈ forestIds (buildGroupTree [wRoot, wKid]))
      ∧ "r" ∈ (buildState [wRoot, wKid]).roots
      ∧ "r" ∈ forestIds (buildGroupTree [wRoot, wKid]) := by
  refine ⟨⟨by decide, by decide⟩, ?_⟩
  have hk := C1_buildGroupTree_amended [wRoot, wKid]
    (by decide) (by decide) wKid (by decide)
  have hr := C1_buildGroupTree_amended [wRoot, wKid]
    (by decide) (by decide) wRoot (by decide)
  have h2 := (hk.1 "r" (by decide)).1 wRoot (by decide)
  have h3 := hr.2 (by decide)
  exact ⟨h2.1, h2.2.1, h2.2.2.1, h2.2.2.2, h3.1, h3.2⟩

/-! ## Claim C5: determinism under permutation -/

theorem nameLe_total (groups : List Group) (a b : String) :
    nameLe groups a b ∨ nameLe groups b a :=
  strLeB_total _ _

instance (groups : List Group) : IsTotal String (nameLe groups) :=
  ⟨nameLe_total groups⟩

instance (groups : List Group) : IsTrans String (nameLe groups) :=
  ⟨fun _ _ _ => strLeB_trans⟩

theorem orderedInsert_congr {α : Type} (r s : α → α → Prop)
    [DecidableRel r] [DecidableRel s] (hrs : ∀ a b, r a b ↔ s a b) (a : α) :
    ∀ l : List α, l.orderedInsert r a = l.orderedInsert s a
  | [] => rfl
  | b :: l => by
      rw [List.orderedInsert, List.orderedInsert]
      by_cases h : r a b
      · rw [if_pos h, if_pos ((hrs a b).mp h)]
      · rw [if_neg h, if_neg (fun h2 => h ((hrs a b).mpr h2)),
          orderedInsert_congr r s hrs a l]

theorem insertionSort_congr {α : Type} (r s : α → α → Prop)
    [DecidableRel r] [DecidableRel s] (hrs : ∀ a b, r a b ↔ s a b) :
    ∀ l : List α, l.insertionSort r = l.insertionSort s
  | [] => rfl
  | a :: l => by
      rw [List.insertionSort, List.insertionSort, insertionSort_congr r s hrs l,
        orderedInsert_congr r s hrs a]

theorem nodeName_perm {l₁ l₂ : List Group} (hperm : l₁.Perm l₂)
    (hnd : (l₁.map Group.id).Nodup) (i : String) :
    nodeName l₁ i = nodeName l₂ i := by
  unfold nodeName getGroup
  rw [lookupNode_perm hperm hnd i]

theorem nodeName_inj {groups : List Group}
    (hnd : (groups.map Group.id).Nodup) (hnn : (groups.map Group.name).Nodup)
    {a b : String} (ha : ∃ g ∈ groups, g.id = a) (hb : ∃ g ∈ groups, g.id = b)
    (he : nodeName groups a = nodeName groups b) : a = b := by
  obtain ⟨ga, hga, rfl⟩ := ha
  obtain ⟨gb, hgb, rfl⟩ := hb
  have la := lookupNode_self hnd hga
  have lb := lookupNode_self hnd hgb
  unfold nodeName at he
  rw [(getGroup_mem_of_lookup la).2, (getGroup_mem_of_lookup lb).2] at he
  rw [List.inj_on_of_nodup_map hnn hga hgb he]

theorem eq_of_perm_of_sorted_of_inj (groups : List Group) :
    ∀ {l₁ l₂ : List String}, l₁.Perm l₂ →
    l₁.Sorted (nameLe groups) → l₂.Sorted (nameLe groups) →
    (∀ a ∈ l₁, ∀ b ∈ l₁, nodeName groups a = nodeName groups b → a = b) →
    l₁ = l₂
  | [], l₂, hperm, _, _, _ => (hperm.symm.eq_nil).symm ▸ rfl
  | a :: t₁, [], hperm, _, _, _ => absurd hperm.eq_nil (by simp)
  | a :: t₁, b :: t₂, hperm, hs₁, hs₂, hinj => by
      have hsc₁ := List.sorted_cons.mp hs₁
      have hsc₂ := List.sorted_cons.mp hs₂
      have hab : a = b := by
        rcases List.mem_cons.mp (hperm.subset (List.mem_cons_self a t₁)) with h | h
        · exact h
        · have hba : nameLe groups b a := hsc₂.1 a h
          rcases List.mem_cons.mp (hperm.symm.subset (List.mem_cons_self b t₂)) with h2 | h2
          · exact h2.symm
          · have hab2 : nameLe groups a b := hsc₁.1 b h2
            exact hinj a (List.mem_cons_self a t₁) b (List.mem_cons_of_mem a h2)
              (strLeB_antisymm hab2 hba)
      subst hab
      have htail : t₁ = t₂ :=
        eq_of_perm_of_sorted_of_inj groups (hperm.cons_inv) hsc₁.2 hsc₂.2
          (fun x hx y hy he =>
            hinj x (List.mem_cons_of_mem a hx) y (List.mem_cons_of_mem a hy) he)
      rw [htail]

theorem buildState_children_perm {l₁ l₂ : List Group} (hperm : l₁.Perm l₂)
    (hnd : (l₁.map Group.id).Nodup) (q : String) :
    ((buildState l₁).children q).Perm ((buildState l₂).children q) := by
  rw [buildState_children, buildState_children]
  have hpred : ∀ g ∈ l₂, attachesTo l₂ g q = attachesTo l₁ g q := by
    intro g _
    unfold attachesTo
    cases truthyParent g.parentId with
    | none => rfl
    | some p => simp only [lookupNode_perm hperm hnd p]
  rw [List.filter_congr hpred]
  exact (hperm.filter _).map Group.id

theorem buildState_roots_perm {l₁ l₂ : List Group} (hperm : l₁.Perm l₂) :
    ((buildState l₁).roots).Perm ((buildState l₂).roots) := by
  rw [buildState_roots, buildState_roots]
  exact (hperm.filter _).map Group.id

theorem sortIds_perm_eq {l₁ l₂ : List Group} (hperm : l₁.Perm l₂)
    (hnd : (l₁.map Group.id).Nodup) (hnn : (l₁.map Group.name).Nodup)
    {xs ys : List String} (hxy : xs.Perm ys)
    (hxsub : ∀ x ∈ xs, ∃ g ∈ l₁, g.id = x) :
    sortIds l₁ xs = sortIds l₂ ys := by
  unfold sortIds
  rw [insertionSort_congr (nameLe l₂) (nameLe l₁)
    (fun a b => by unfold nameLe; rw [nodeName_perm hperm hnd a,
      nodeName_perm hperm hnd b]) ys]
  refine eq_of_perm_of_sorted_of_inj l₁ ?_ ?_ ?_ ?_
  · exact ((List.perm_insertionSort _ _).trans hxy).trans
      (List.perm_insertionSort _ _).symm
  · exact List.sorted_insertionSort _ _
  · exact List.sorted_insertionSort _ _
  · intro a ha b hb he
    have ha' := ((List.perm_insertionSort _ _).mem_iff).mp ha
    have hb' := ((List.perm_insertionSort _ _).mem_iff).mp hb
    exact nodeName_inj hnd hnn (hxsub a ha') (hxsub b hb') he

theorem shapeList_map (f : String → GTNode) :
    ∀ l : List String, shapeList (l.map f) = l.map (fun c => shape (f c))
  | [] => rfl
  | c :: l => by
      rw [List.map_cons, shapeList, List.map_cons, shapeList_map f l]

theorem shape_buildNode_perm {l₁ l₂ : List Group} (hperm : l₁.Perm l₂)
    (hnd : (l₁.map Group.id).Nodup) (hnn : (l₁.map Group.name).Nodup) :
    ∀ (fuel : Nat) (i : String),
    shape (buildNode l₁ (buildState l₁) fuel i)
      = shape (buildNode l₂ (buildState l₂) fuel i)
  | 0, i => by
      simp only [buildNode, shape, getGroup_id]
  | fuel + 1, i => by
      have hch : sortIds l₁ ((buildState l₁).children i)
          = sortIds l₂ ((buildState l₂).children i) :=
        sortIds_perm_eq hperm hnd hnn (buildState_children_perm hperm hnd i)
          (fun x hx => by
            obtain ⟨g, hg, he, _⟩ := mem_children_iff.mp hx
            exact ⟨g, hg, he⟩)
      simp only [buildNode, shape, getGroup_id]
      rw [shapeList_map, shapeList_map, ← hch]
      exact congrArg (PTree.mk i)
        (List.map_congr_left (fun c _ => shape_buildNode_perm hperm hnd hnn fuel c))

/-- C5 (corrected).  As stated the claim is self-defeating for duplicate
names: the sibling order among equal-named siblings follows the input
order, so two different orderings of the same multiset can produce
different sibling orders.  Amended claim, proved here: for inputs with
pairwise-distinct ids and pairwise-distinct names, permuting the input
yields a forest with identical parent/child structure and identical
sibling order at every level. -/
theorem C5_buildGroupTree_amended {l₁ l₂ : List Group} (hperm : l₁.Perm l₂)
    (hnd : (l₁.map Group.id).Nodup) (hnn : (l₁.map Group.name).Nodup) :
    (buildGroupTree l₁).map shape = (buildGroupTree l₂).map shape := by
  unfold buildGroupTree
  have hlen : l₁.length = l₂.length := hperm.length_eq
  have hroots : sortIds l₁ (buildState l₁).roots = sortIds l₂ (buildState l₂).roots :=
    sortIds_perm_eq hperm hnd hnn (buildState_roots_perm hperm)
      (fun x hx => by
        obtain ⟨g, hg, he, _⟩ := mem_roots_iff.mp hx
        exact ⟨g, hg, he⟩)
  rw [← hroots, List.map_map, List.map_map]
  refine List.map_congr_left (fun r _ => ?_)
  have := shape_buildNode_perm hperm hnd hnn (l₁.length + 1) r
  simpa [Function.comp, hlen] using this

/-- C5 counterexample: two roots that share the name A swap their sibling
order when the input sequence is permuted, so the two forests are not
identical. -/
theorem C5_buildGroupTree_cex :
    [dupA2, dupA1].Perm [dupA1, dupA2]
      ∧ (buildGroupTree [dupA1, dupA2]).map GTNode.gid = ["1", "2"]
      ∧ (buildGroupTree [dupA2, dupA1]).map GTNode.gid = ["2", "1"] := by
  decide

/-- C5 witness: the amended claim applied to a concrete two-element
permutation with distinct names. -/
theorem C5_buildGroupTree_witness :
    [wKid, wRoot].Perm [wRoot, wKid]
      ∧ ([wKid, wRoot].map Group.id).Nodup
      ∧ ([wKid, wRoot].map Group.name).Nodup
      ∧ (buildGroupTree [wKid, wRoot]).map shape
          = (buildGroupTree [wRoot, wKid]).map shape :=
  ⟨by decide, by decide, by decide,
    C5_buildGroupTree_amended (by decide) (by decide) (by decide)⟩

/-! ## Claim C4: getGroupPath on a cyclic snapshot -/

theorem stepWalk_cyc : stepWalk cycInput (some cycGroup) = some cycGroup := by
  decide

theorem walkN_cyc : ∀ n : Nat, walkN cycInput n (some cycGroup) = some cycGroup
  | 0 => rfl
  | n + 1 => by
      show walkN cycInput n (stepWalk cycInput (some cycGroup)) = some cycGroup
      rw [stepWalk_cyc]
      exact walkN_cyc n

theorem getGroupPathGo_cyc :
    ∀ (n : Nat) (path : List String),
    getGroupPathGo cycInput (some cycGroup) path n = none
  | 0, _ => rfl
  | n + 1, path => by
      show getGroupPathGo cycInput (stepWalk cycInput (some cycGroup))
        (cycGroup.name :: path) n = none
      rw [stepWalk_cyc]
      exact getGroupPathGo_cyc n _

/-- C4 (code bug): the claimed cycle guard does not exist.  On the
snapshot consisting of the single self-parented group, the while-loop of
`getGroupPath` revisits id a at every iteration — after any number of
steps the current group is still that group — and the loop never
completes, whatever the fuel.  The spec requires the walk to stop at the
first repeated id. -/
theorem C4_getGroupPath_diverges (n : Nat) :
    walkN cycInput n (lookupNode cycInput "a") = some cycGroup
      ∧ getGroupPathF cycInput "a" n = none := by
  have hlk : lookupNode cycInput "a" = some cycGroup := by decide
  constructor
  · rw [hlk]
    exact walkN_cyc n
  · unfold getGroupPathF
    rw [hlk]
    exact getGroupPathGo_cyc n []

/-! ## Remote-call equations -/

theorem applyLimit_none {α : Type} (l : List α) : applyLimit none l = l := rfl

theorem createCount_append (t₁ t₂ : List SrvEvent) :
    createCount (t₁ ++ t₂) = createCount t₁ + createCount t₂ := by
  simp [createCount, List.countP_append]

theorem createCount_list_event (t : List SrvEvent) (q : ListGroupsQuery) :
    createCount (t ++ [SrvEvent.list q]) = createCount t := by
  simp [createCount_append, createCount]

theorem srvList_ok {st : SrvState} (h : st.schedule = []) (q : ListGroupsQuery) :
    srvList st q
      = (.ok (applyLimit q.limit (st.groups.filter (matchesGroupQuery q))),
         { st with trace := st.trace ++ [SrvEvent.list q] }) := by
  rcases st with ⟨gs, ni, sch, tr⟩
  subst h
  rfl

theorem srvCreate_ok {st : SrvState} (h : st.schedule = [])
    (req : CreateGroupRequest) :
    srvCreate st req
      = (.ok ⟨freshGroupId st.nextId, req.name, "user",
            req.workspaceId.getD "", req.parentId⟩,
         { st with
           trace := st.trace ++ [SrvEvent.create req],
           groups := st.groups
             ++ [⟨freshGroupId st.nextId, req.name, "user",
                  req.workspaceId.getD "", req.parentId⟩],
           nextId := st.nextId + 1 }) := by
  rcases st with ⟨gs, ni, sch, tr⟩
  subst h
  rfl

theorem cgpStep_found {st : SrvState} (h : st.schedule = []) {nm : String}
    {ws cur : Option String} {g : Group}
    (hfind : (st.groups.filter (matchesGroupQuery (stepQuery ws cur))).find?
        (fun x => x.name == nm) = some g) :
    cgpStep nm ws cur st
      = (.ok g, { st with trace := st.trace
          ++ [SrvEvent.list (stepQuery ws cur)] }) := by
  unfold cgpStep
  rw [srvList_ok h]
  simp only [applyLimit_none, show (stepQuery ws cur).limit = none from rfl]
  rw [hfind]

theorem cgpStep_create {st : SrvState} (h : st.schedule = []) {nm : String}
    {ws cur : Option String}
    (hfind : (st.groups.filter (matchesGroupQuery (stepQuery ws cur))).find?
        (fun x => x.name == nm) = none) :
    cgpStep nm ws cur st
      = (.ok ⟨freshGroupId st.nextId, nm, "user", ws.getD "", cur⟩,
         { st with
           trace := st.trace
             ++ [SrvEvent.list (stepQuery ws cur), SrvEvent.create ⟨nm, ws, cur⟩],
           groups := st.groups
             ++ [⟨freshGroupId st.nextId, nm, "user", ws.getD "", cur⟩],
           nextId := st.nextId + 1 }) := by
  unfold cgpStep
  rw [srvList_ok h]
  simp only [applyLimit_none, show (stepQuery ws cur).limit = none from rfl]
  rw [hfind]
  have h2 : ({ st with trace := st.trace ++ [SrvEvent.list (stepQuery ws cur)] }
      : SrvState).schedule = [] := h
  rw [srvCreate_ok h2]
  simp [List.append_assoc]

theorem matchesGroupQuery_created (ws cur : Option String) (nm : String)
    (nid : Nat) :
    matchesGroupQuery (stepQuery ws cur)
      ⟨freshGroupId nid, nm, "user", ws.getD "", cur⟩ = true := by
  unfold matchesGroupQuery stepQuery listGroupsQuery
  cases ws <;> cases cur <;> simp

/-! ## Claim C2: createGroupPath idempotence -/

theorem cgpGo_idem (ws : Option String) :
    ∀ (names : List String) (cur : Option String) (acc : List Group)
      (st : SrvState), st.schedule = [] →
    ∃ out st',
      cgpGo ws names cur acc st = (.ok (acc ++ out), st')
      ∧ st'.schedule = []
      ∧ (∃ Δ, st'.groups = st.groups ++ Δ)
      ∧ ∀ (st₂ : SrvState) (acc₂ : List Group), st₂.schedule = [] →
          st₂.groups = st'.groups →
          (cgpGo ws names cur acc₂ st₂).1 = .ok (acc₂ ++ out)
          ∧ (cgpGo ws names cur acc₂ st₂).2.groups = st₂.groups
          ∧ (cgpGo ws names cur acc₂ st₂).2.schedule = []
          ∧ createCount (cgpGo ws names cur acc₂ st₂).2.trace
              = createCount st₂.trace
  | [], cur, acc, st, h =>
      ⟨[], st, by simp [cgpGo], h, ⟨[], by simp⟩,
        fun st₂ acc₂ h₂ _ => ⟨by simp [cgpGo], rfl, h₂, rfl⟩⟩
  | nm :: rest, cur, acc, st, h => by
      cases hfind : (st.groups.filter (matchesGroupQuery (stepQuery ws cur))).find?
          (fun x => x.name == nm) with
      | some g =>
          have hstep := cgpStep_found h hfind
          obtain ⟨out_r, st', hA, hB, ⟨Δ, hC⟩, hD⟩ :=
            cgpGo_idem ws rest (some g.id) (acc ++ [g])
              { st with trace := st.trace ++ [SrvEvent.list (stepQuery ws cur)] } h
          refine ⟨g :: out_r, st', ?_, hB, ⟨Δ, hC⟩, ?_⟩
          · simp only [cgpGo, hstep, hA]
            simp
          · intro st₂ acc₂ h₂ hg₂
            have hfind₂ : (st₂.groups.filter
                (matchesGroupQuery (stepQuery ws cur))).find?
                (fun x => x.name == nm) = some g := by
              rw [hg₂, hC]
              simp only [List.filter_append, List.find?_append]
              rw [hfind]
              rfl
            have hstep₂ := cgpStep_found h₂ hfind₂
            have hrun := hD { st₂ with trace := st₂.trace
                ++ [SrvEvent.list (stepQuery ws cur)] } (acc₂ ++ [g]) h₂ hg₂
            refine ⟨?_, ?_, ?_, ?_⟩
            · simp only [cgpGo, hstep₂, hrun.1]
              simp
            · simp only [cgpGo, hstep₂, hrun.2.1]
            · simp only [cgpGo, hstep₂, hrun.2.2.1]
            · simp only [cgpGo, hstep₂, hrun.2.2.2]
              exact createCount_list_event st₂.trace (stepQuery ws cur)
      | none =>
          have hstep := cgpStep_create h hfind
          obtain ⟨out_r, st', hA, hB, ⟨Δ, hC⟩, hD⟩ :=
            cgpGo_idem ws rest
              (some (freshGroupId st.nextId))
              (acc ++ [⟨freshGroupId st.nextId, nm, "user", ws.getD "", cur⟩])
              { st with
                trace := st.trace
                  ++ [SrvEvent.list (stepQuery ws cur),
                      SrvEvent.create ⟨nm, ws, cur⟩],
                groups := st.groups
                  ++ [⟨freshGroupId st.nextId, nm, "user", ws.getD "", cur⟩],
                nextId := st.nextId + 1 } h
          refine ⟨⟨freshGroupId st.nextId, nm, "user", ws.getD "", cur⟩ :: out_r,
            st', ?_, hB,
            ⟨⟨freshGroupId st.nextId, nm, "user", ws.getD "", cur⟩ :: Δ, by
              rw [hC]
              simp⟩, ?_⟩
          · simp only [cgpGo, hstep, hA]
            simp
          · intro st₂ acc₂ h₂ hg₂
            have hfind₂ : (st₂.groups.filter
                (matchesGroupQuery (stepQuery ws cur))).find?
                (fun x => x.name == nm)
                = some ⟨freshGroupId st.nextId, nm, "user", ws.getD "", cur⟩ := by
              rw [hg₂, hC]
              show (((st.groups
                  ++ [(⟨freshGroupId st.nextId, nm, "user", ws.getD "", cur⟩ : Group)])
                    ++ Δ).filter (matchesGroupQuery (stepQuery ws cur))).find?
                  (fun x => x.name == nm)
                = some (⟨freshGroupId st.nextId, nm, "user", ws.getD "", cur⟩ : Group)
              rw [List.append_assoc]
              simp only [List.filter_append, List.find?_append]
              rw [hfind]
              simp only [List.filter_cons, matchesGroupQuery_created]
              simp
            have hstep₂ := cgpStep_found h₂ hfind₂
            have hrun := hD { st₂ with trace := st₂.trace
                ++ [SrvEvent.list (stepQuery ws cur)] }
              (acc₂ ++ [⟨freshGroupId st.nextId, nm, "user", ws.getD "", cur⟩])
              h₂ hg₂
            refine ⟨?_, ?_, ?_, ?_⟩
            · simp only [cgpGo, hstep₂, hrun.1]
              simp
            · simp only [cgpGo, hstep₂, hrun.2.1]
            · simp only [cgpGo, hstep₂, hrun.2.2.1]
            · simp only [cgpGo, hstep₂, hrun.2.2.2]
              exact createCount_list_event st₂.trace (stepQuery ws cur)

/-- C2 (confirmed): after a successful first run (no injected failures),
running `createGroupPath` again with the same names and workspace returns
the very same sequence of groups (hence the same ids), makes zero create
calls, and leaves the stored groups unchanged. -/
theorem C2_createGroupPath_idempotent (names : List String)
    (ws : Option String) (st : SrvState) (hsched : st.schedule = []) :
    ∃ gs,
      (createGroupPath names ws st).1 = .ok gs
      ∧ (createGroupPath names ws ((createGroupPath names ws st).2)).1 = .ok gs
      ∧ (createGroupPath names ws ((createGroupPath names ws st).2)).2.groups
          = (createGroupPath names ws st).2.groups
      ∧ createCount
            (createGroupPath names ws ((createGroupPath names ws st).2)).2.trace
          = createCount (createGroupPath names ws st).2.trace := by
  obtain ⟨out, st', hA, hB, _, hD⟩ := cgpGo_idem ws names none [] st hsched
  have hrun := hD st' [] hB rfl
  refine ⟨out, ?_, ?_, ?_, ?_⟩
  · unfold createGroupPath
    rw [hA]
    simp
  · unfold createGroupPath
    rw [hA]
    simpa using hrun.1
  · unfold createGroupPath
    rw [hA]
    exact hrun.2.1
  · unfold createGroupPath
    rw [hA]
    exact hrun.2.2.2

/-- C2 witness: the idempotence theorem applied to the concrete run
`createPath(["A","B"], w)` against an initially empty store. -/
theorem C2_createGroupPath_witness :
    emptyStore.schedule = []
      ∧ ∃ gs,
        (createGroupPath ["A", "B"] (some "w") emptyStore).1 = .ok gs
        ∧ (createGroupPath ["A", "B"] (some "w")
            ((createGroupPath ["A", "B"] (some "w") emptyStore).2)).1 = .ok gs
        ∧ (createGroupPath ["A", "B"] (some "w")
            ((createGroupPath ["A", "B"] (some "w") emptyStore).2)).2.groups
            = (createGroupPath ["A", "B"] (some "w") emptyStore).2.groups
        ∧ createCount (createGroupPath ["A", "B"] (some "w")
            ((createGroupPath ["A", "B"] (some "w") emptyStore).2)).2.trace
            = createCount (createGroupPath ["A", "B"] (some "w") emptyStore).2.trace :=
  ⟨rfl, C2_createGroupPath_idempotent ["A", "B"] (some "w") emptyStore rfl⟩

/-! ## Claim C3: the per-step lookup and the reuse rule -/

/-- C3 (corrected).  As stated the claim fails at the first step: an
undefined `currentParentId` is dropped from the query, so the first
lookup is filtered by workspaceId only and lists groups at every level of
the hierarchy.  Amended claim, proved here: every step issues exactly one
list call whose query carries the workspaceId and `parentId =
currentParent`, where an absent parent means the parameter is absent —
in particular the first step (currentParent = none) applies no parent
filter at all; among the listed groups the step reuses the first one
whose name equals the requested name (case-sensitive exact comparison),
and otherwise creates `{ name, workspaceId, parentId: currentParent }`. -/
theorem C3_createGroupPath_step_amended (nm : String) (ws cur : Option String)
    (st : SrvState) (hsched : st.schedule = []) :
    ((stepQuery ws cur).parentId = cur ∧ (stepQuery ws cur).workspaceId = ws)
    ∧ (∀ g', matchesGroupQuery (stepQuery ws none) g'
        = match ws with
          | none => true
          | some w => g'.workspaceId == w)
    ∧ (∀ g, (st.groups.filter (matchesGroupQuery (stepQuery ws cur))).find?
          (fun x => x.name == nm) = some g →
        cgpStep nm ws cur st
          = (.ok g, { st with trace := st.trace
              ++ [SrvEvent.list (stepQuery ws cur)] }))
    ∧ ((st.groups.filter (matchesGroupQuery (stepQuery ws cur))).find?
          (fun x => x.name == nm) = none →
        cgpStep nm ws cur st
          = (.ok ⟨freshGroupId st.nextId, nm, "user", ws.getD "", cur⟩,
             { st with
               trace := st.trace
                 ++ [SrvEvent.list (stepQuery ws cur),
                     SrvEvent.create ⟨nm, ws, cur⟩],
               groups := st.groups
                 ++ [⟨freshGroupId st.nextId, nm, "user", ws.getD "", cur⟩],
               nextId := st.nextId + 1 })) := by
  refine ⟨⟨rfl, rfl⟩, ?_, fun _ hf => cgpStep_found hsched hf,
    fun hf => cgpStep_create hsched hf⟩
  intro g'
  cases ws <;> simp [matchesGroupQuery, stepQuery, listGroupsQuery]

/-- C3 counterexample: in a store holding only a nested group named A
(under the root named Root) and that root, `createPath(["A"], w)` issues
a single list query whose parentId parameter is absent, reuses the
nested group (whose parentId is r1, not a root), and creates nothing —
the claim would require the lookup to be restricted to
parentId = currentParent = none and hence a fresh root group named A to
be created. -/
theorem C3_createGroupPath_cex :
    (createGroupPath ["A"] (some "w") nestedStore).1 = .ok [nestedA]
      ∧ nestedA.parentId = some "r1"
      ∧ listQueries ((createGroupPath ["A"] (some "w") nestedStore).2.trace)
          = [{ page := none, limit := none, workspaceId := some "w",
               parentId := none, search := none, sort := none }]
      ∧ createCount (createGroupPath ["A"] (some "w") nestedStore).2.trace = 0 :=
  ⟨rfl, rfl, rfl, rfl⟩

/-- C3 witness: the amended per-step rule applied to the nested store at
the first step. -/
theorem C3_createGroupPath_step_witness :
    nestedStore.schedule = []
      ∧ (nestedStore.groups.filter
            (matchesGroupQuery (stepQuery (some "w") none))).find?
          (fun x => x.name == "A") = some nestedA
      ∧ cgpStep "A" (some "w") none nestedStore
          = (.ok nestedA, { nestedStore with trace := nestedStore.trace
              ++ [SrvEvent.list (stepQuery (some "w") none)] }) := by
  refine ⟨rfl, by decide, ?_⟩
  exact (C3_createGroupPath_step_amended "A" (some "w") none nestedStore
    rfl).2.2.1 nestedA (by decide)

/-! ## Claim C8: abort on first failure, no rollback -/

theorem srvList_pop_err {st : SrvState} {e : ApiErr}
    {tail : List (Option ApiErr)} (h : st.schedule = some e :: tail)
    (q : ListGroupsQuery) :
    srvList st q = (.error e,
      { st with schedule := tail, trace := st.trace ++ [SrvEvent.list q] }) := by
  rcases st with ⟨gs, ni, sch, tr⟩
  subst h
  rfl

theorem srvList_pop_ok {st : SrvState} {tail : List (Option ApiErr)}
    (h : st.schedule = none :: tail) (q : ListGroupsQuery) :
    srvList st q
      = (.ok (applyLimit q.limit (st.groups.filter (matchesGroupQuery q))),
         { st with schedule := tail, trace := st.trace ++ [SrvEvent.list q] }) := by
  rcases st with ⟨gs, ni, sch, tr⟩
  subst h
  rfl

theorem srvCreate_pop_err {st : SrvState} {e : ApiErr}
    {tail : List (Option ApiErr)} (h : st.schedule = some e :: tail)
    (req : CreateGroupRequest) :
    srvCreate st req = (.error e,
      { st with schedule := tail, trace := st.trace ++ [SrvEvent.create req] }) := by
  rcases st with ⟨gs, ni, sch, tr⟩
  subst h
  rfl

theorem srvCreate_pop_ok {st : SrvState} {tail : List (Option ApiErr)}
    (h : st.schedule = none :: tail) (req : CreateGroupRequest) :
    srvCreate st req
      = (.ok ⟨freshGroupId st.nextId, req.name, "user",
            req.workspaceId.getD "", req.parentId⟩,
         { st with
           schedule := tail,
           trace := st.trace ++ [SrvEvent.create req],
           groups := st.groups
             ++ [⟨freshGroupId st.nextId, req.name, "user",
                  req.workspaceId.getD "", req.parentId⟩],
           nextId := st.nextId + 1 }) := by
  rcases st with ⟨gs, ni, sch, tr⟩
  subst h
  rfl

theorem cgpStep_pop_err_list {st : SrvState} {e : ApiErr}
    {tail : List (Option ApiErr)} (h : st.schedule = some e :: tail)
    (nm : String) (ws cur : Option String) :
    cgpStep nm ws cur st = (.error e,
      { st with
        schedule := tail,
        trace := st.trace ++ [SrvEvent.list (stepQuery ws cur)] }) := by
  unfold cgpStep
  rw [srvList_pop_err h]

theorem cgpStep_pop_found {st : SrvState} {tail : List (Option ApiErr)}
    (h : st.schedule = none :: tail) {nm : String} {ws cur : Option String}
    {g : Group}
    (hfind : (st.groups.filter (matchesGroupQuery (stepQuery ws cur))).find?
        (fun x => x.name == nm) = some g) :
    cgpStep nm ws cur st = (.ok g,
      { st with
        schedule := tail,
        trace := st.trace ++ [SrvEvent.list (stepQuery ws cur)] }) := by
  unfold cgpStep
  rw [srvList_pop_ok h]
  simp only [applyLimit_none, show (stepQuery ws cur).limit = none from rfl]
  rw [hfind]

theorem cgpStep_pop_create_err {st : SrvState} {e : ApiErr}
    {tail : List (Option ApiErr)} (h : st.schedule = none :: some e :: tail)
    {nm : String} {ws cur : Option String}
    (hfind : (st.groups.filter (matchesGroupQuery (stepQuery ws cur))).find?
        (fun x => x.name == nm) = none) :
    cgpStep nm ws cur st = (.error e,
      { st with
        schedule := tail,
        trace := st.trace
          ++ [SrvEvent.list (stepQuery ws cur), SrvEvent.create ⟨nm, ws, cur⟩] }) := by
  unfold cgpStep
  rw [srvList_pop_ok h]
  simp only [applyLimit_none, show (stepQuery ws cur).limit = none from rfl]
  rw [hfind]
  rw [srvCreate_pop_err (show ({ st with
    schedule := some e :: tail,
    trace := st.trace ++ [SrvEvent.list (stepQuery ws cur)] } : SrvState).schedule
      = some e :: tail from rfl)]
  simp [List.append_assoc]

theorem cgpStep_pop_create_ok {st : SrvState} {tail : List (Option ApiErr)}
    (h : st.schedule = none :: none :: tail) {nm : String}
    {ws cur : Option String}
    (hfind : (st.groups.filter (matchesGroupQuery (stepQuery ws cur))).find?
        (fun x => x.name == nm) = none) :
    cgpStep nm ws cur st
      = (.ok ⟨freshGroupId st.nextId, nm, "user", ws.getD "", cur⟩,
         { st with
           schedule := tail,
           trace := st.trace
             ++ [SrvEvent.list (stepQuery ws cur), SrvEvent.create ⟨nm, ws, cur⟩],
           groups := st.groups
             ++ [⟨freshGroupId st.nextId, nm, "user", ws.getD "", cur⟩],
           nextId := st.nextId + 1 }) := by
  unfold cgpStep
  rw [srvList_pop_ok h]
  simp only [applyLimit_none, show (stepQuery ws cur).limit = none from rfl]
  rw [hfind]
  rw [srvCreate_pop_ok (show ({ st with
    schedule := none :: tail,
    trace := st.trace ++ [SrvEvent.list (stepQuery ws cur)] } : SrvState).schedule
      = none :: tail from rfl)]
  simp [List.append_assoc]

theorem cgpGo_fail (ws : Option String) :
    ∀ (names : List String) (cur : Option String) (acc : List Group)
      (st : SrvState) (k : Nat) (e : ApiErr) (rest : List (Option ApiErr)),
    st.schedule = List.replicate k none ++ some e :: rest →
    (∃ gs j, (cgpGo ws names cur acc st).1 = .ok gs
        ∧ (cgpGo ws names cur acc st).2.schedule = st.schedule.drop j ∧ j ≤ k)
    ∨ ((cgpGo ws names cur acc st).1 = .error e
        ∧ (cgpGo ws names cur acc st).2.schedule = rest
        ∧ ∃ Δ, (cgpGo ws names cur acc st).2.groups = st.groups ++ Δ)
  | [], cur, acc, st, k, e, rest, h =>
      Or.inl ⟨acc, 0, by simp [cgpGo], by simp [cgpGo], Nat.zero_le k⟩
  | nm :: names, cur, acc, st, k, e, rest, h => by
      cases k with
      | zero =>
          rw [List.replicate, List.nil_append] at h
          have hstep := cgpStep_pop_err_list h nm ws cur
          refine Or.inr ⟨?_, ?_, ⟨[], ?_⟩⟩
          · simp only [cgpGo, hstep]
          · simp only [cgpGo, hstep]
          · simp only [cgpGo, hstep]
            simp
      | succ k' =>
          have h' : st.schedule = none :: (List.replicate k' none
              ++ some e :: rest) := by
            rw [h, List.replicate, List.cons_append]
          cases hfind : (st.groups.filter
              (matchesGroupQuery (stepQuery ws cur))).find?
              (fun x => x.name == nm) with
          | some g =>
              have hstep := cgpStep_pop_found h' hfind
              have ih := cgpGo_fail ws names (some g.id) (acc ++ [g])
                { st with
                  schedule := List.replicate k' none ++ some e :: rest,
                  trace := st.trace ++ [SrvEvent.list (stepQuery ws cur)] }
                k' e rest rfl
              rcases ih with ⟨gs, j, h1, h2, h3⟩ | ⟨h1, h2, Δ, h3⟩
              · refine Or.inl ⟨gs, j + 1, ?_, ?_, Nat.succ_le_succ h3⟩
                · simp only [cgpGo, hstep]
                  exact h1
                · simp only [cgpGo, hstep]
                  rw [h2, h']
                  rfl
              · refine Or.inr ⟨?_, ?_, ⟨Δ, ?_⟩⟩
                · simp only [cgpGo, hstep]
                  exact h1
                · simp only [cgpGo, hstep]
                  exact h2
                · simp only [cgpGo, hstep]
                  exact h3
          | none =>
              cases k' with
              | zero =>
                  have h'' : st.schedule = none :: some e :: rest := by
                    rw [h]
                    rfl
                  have hstep := cgpStep_pop_create_err h'' hfind
                  refine Or.inr ⟨?_, ?_, ⟨[], ?_⟩⟩
                  · simp only [cgpGo, hstep]
                  · simp only [cgpGo, hstep]
                  · simp only [cgpGo, hstep]
                    simp
              | succ k'' =>
                  have h'' : st.schedule = none :: none :: (List.replicate k'' none
                      ++ some e :: rest) := by
                    rw [h]
                    rfl
                  have hstep := cgpStep_pop_create_ok h'' hfind
                  have ih := cgpGo_fail ws names
                    (some (freshGroupId st.nextId))
                    (acc ++ [⟨freshGroupId st.nextId, nm, "user", ws.getD "", cur⟩])
                    { st with
                      schedule := List.replicate k'' none ++ some e :: rest,
                      trace := st.trace
                        ++ [SrvEvent.list (stepQuery ws cur),
                            SrvEvent.create ⟨nm, ws, cur⟩],
                      groups := st.groups
                        ++ [⟨freshGroupId st.nextId, nm, "user", ws.getD "", cur⟩],
                      nextId := st.nextId + 1 }
                    k'' e rest rfl
                  rcases ih with ⟨gs, j, h1, h2, h3⟩ | ⟨h1, h2, Δ, h3⟩
                  · refine Or.inl ⟨gs, j + 2, ?_, ?_, by omega⟩
                    · simp only [cgpGo, hstep]
                      exact h1
                    · simp only [cgpGo, hstep]
                      rw [h2, h'']
                      rfl
                  · refine Or.inr ⟨?_, ?_, ?_⟩
                    · simp only [cgpGo, hstep]
                      exact h1
                    · simp only [cgpGo, hstep]
                      exact h2
                    · refine ⟨⟨freshGroupId st.nextId, nm, "user",
                        ws.getD "", cur⟩ :: Δ, ?_⟩
                      simp only [cgpGo, hstep]
                      rw [h3]
                      simp

/-- C8 (confirmed): when the schedule makes the (k+1)-st remote call of
`createGroupPath` fail, either the whole run finished successfully before
reaching it, or the run returns exactly that failure unchanged, stops
right there (the schedule is consumed exactly up to and including the
failing entry, so no further list or create call runs), and the stored
groups are only ever extended — groups created by earlier steps of the
invocation persist and are not rolled back. -/
theorem C8_createGroupPath_abort (names : List String) (ws : Option String)
    (st : SrvState) (k : Nat) (e : ApiErr) (rest : List (Option ApiErr))
    (hsched : st.schedule = List.replicate k none ++ some e :: rest) :
    (∃ gs j, (createGroupPath names ws st).1 = .ok gs
        ∧ (createGroupPath names ws st).2.schedule = st.schedule.drop j ∧ j ≤ k)
    ∨ ((createGroupPath names ws st).1 = .error e
        ∧ (createGroupPath names ws st).2.schedule = rest
        ∧ ∃ Δ, (createGroupPath names ws st).2.groups = st.groups ++ Δ) :=
  cgpGo_fail ws names none [] st k e rest hsched

/-- C8 witness: the abort theorem applied to a store whose third call
fails, running `createPath(["A","B"], w)` — the third call is the second
step's list call, so the run aborts there with that very failure. -/
theorem C8_createGroupPath_witness :
    failingStore.schedule = List.replicate 2 none ++ some failErr :: []
      ∧ (createGroupPath ["A", "B"] (some "w") failingStore).1 = .error failErr
      ∧ ((∃ gs j, (createGroupPath ["A", "B"] (some "w") failingStore).1 = .ok gs
          ∧ (createGroupPath ["A", "B"] (some "w") failingStore).2.schedule
              = failingStore.schedule.drop j ∧ j ≤ 2)
        ∨ ((createGroupPath ["A", "B"] (some "w") failingStore).1 = .error failErr
          ∧ (createGroupPath ["A", "B"] (some "w") failingStore).2.schedule = []
          ∧ ∃ Δ, (createGroupPath ["A", "B"] (some "w") failingStore).2.groups
              = failingStore.groups ++ Δ)) :=
  ⟨rfl, rfl,
    C8_createGroupPath_abort ["A", "B"] (some "w") failingStore 2 failErr [] rfl⟩

/-! ## Claim C6: the paginated fetch loop -/

theorem fetchAllGo_meta (items : List Group) :
    ∀ (fuel page cnt : Nat) (acc : List Group), 1 ≤ page → 1 ≤ fuel →
    (items.length + 99) / 100 < page + fuel →
    fetchAllGo (metaFetch items) fuel page acc cnt
      = some (.ok (acc ++ items.drop ((page - 1) * 100),
          cnt + max 1 ((items.length + 99) / 100 + 1 - page)))
  | 0, page, cnt, acc, _, hf, _ => absurd hf (by omega)
  | fuel + 1, page, cnt, acc, hp, _, ha => by
      have hdm := Nat.div_add_mod (items.length + 99) 100
      have hmod : (items.length + 99) % 100 < 100 := Nat.mod_lt _ (by norm_num)
      simp only [fetchAllGo, metaFetch]
      cases hlt : decide (page < (items.length + 99) / 100) with
      | true =>
          rw [if_pos rfl]
          have hplt := of_decide_eq_true hlt
          have hrec := fetchAllGo_meta items fuel (page + 1) (cnt + 1)
            (acc ++ pageSlice items page) (by omega) (by omega) (by omega)
          rw [hrec]
          have hdata : (acc ++ pageSlice items page)
              ++ items.drop ((page + 1 - 1) * 100)
              = acc ++ items.drop ((page - 1) * 100) := by
            have hdd : items.drop ((page + 1 - 1) * 100)
                = (items.drop ((page - 1) * 100)).drop 100 := by
              rw [List.drop_drop]
              congr 1
              omega
            rw [hdd, pageSlice, List.append_assoc, List.take_append_drop]
          rw [hdata]
          have hcnt : cnt + 1 + max 1 ((items.length + 99) / 100 + 1 - (page + 1))
              = cnt + max 1 ((items.length + 99) / 100 + 1 - page) := by
            omega
          rw [hcnt]
      | false =>
          rw [if_neg (by simp)]
          have hpge := of_decide_eq_false hlt
          have hlen : (items.drop ((page - 1) * 100)).length ≤ 100 := by
            rw [List.length_drop]
            omega
          have hdata : pageSlice items page = items.drop ((page - 1) * 100) := by
            unfold pageSlice
            exact List.take_of_length_le hlen
          rw [hdata]
          have hcnt : cnt + 1
              = cnt + max 1 ((items.length + 99) / 100 + 1 - page) := by
            omega
          rw [hcnt]

theorem fetchAllGo_noMeta (items : List Group) :
    ∀ (fuel page cnt : Nat) (acc : List Group), 1 ≤ page →
    (items.drop ((page - 1) * 100)).length < fuel * 100 →
    fetchAllGo (noMetaFetch items) fuel page acc cnt
      = some (.ok (acc ++ items.drop ((page - 1) * 100),
          cnt + ((items.drop ((page - 1) * 100)).length / 100 + 1)))
  | 0, page, cnt, acc, _, hf => absurd hf (by omega)
  | fuel + 1, page, cnt, acc, hp, ha => by
      have hdd : items.drop ((page + 1 - 1) * 100)
          = (items.drop ((page - 1) * 100)).drop 100 := by
        rw [List.drop_drop]
        congr 1
        omega
      have hdm := Nat.div_add_mod (items.drop ((page - 1) * 100)).length 100
      have hmod : (items.drop ((page - 1) * 100)).length % 100 < 100 :=
        Nat.mod_lt _ (by norm_num)
      simp only [fetchAllGo, noMetaFetch]
      have hlenp : (pageSlice items page).length
          = min 100 (items.drop ((page - 1) * 100)).length := by
        unfold pageSlice
        exact List.length_take 100 _
      cases hfull : (pageSlice items page).length == 100 with
      | true =>
          rw [if_pos rfl]
          have h100 : 100 ≤ (items.drop ((page - 1) * 100)).length := by
            have := of_decide_eq_true (by simpa [beq_iff_eq] using hfull :
              decide ((pageSlice items page).length = 100) = true)
            omega
          have hdm2 := Nat.div_add_mod
            ((items.drop ((page - 1) * 100)).length - 100) 100
          have hmod2 : ((items.drop ((page - 1) * 100)).length - 100) % 100 < 100 :=
            Nat.mod_lt _ (by norm_num)
          have hrec := fetchAllGo_noMeta items fuel (page + 1) (cnt + 1)
            (acc ++ pageSlice items page) (by omega)
            (by rw [hdd, List.length_drop]; omega)
          rw [hrec, hdd]
          have hdata : (acc ++ pageSlice items page)
              ++ (items.drop ((page - 1) * 100)).drop 100
              = acc ++ items.drop ((page - 1) * 100) := by
            rw [pageSlice, List.append_assoc, List.take_append_drop]
          rw [hdata]
          have hcnt : cnt + 1
                + (((items.drop ((page - 1) * 100)).drop 100).length / 100 + 1)
              = cnt + ((items.drop ((page - 1) * 100)).length / 100 + 1) := by
            rw [List.length_drop]
            omega
          rw [hcnt]
      | false =>
          rw [if_neg (by simp)]
          have hlt100 : (items.drop ((page - 1) * 100)).length < 100 := by
            have := of_decide_eq_false (by simpa [beq_iff_eq] using hfull :
              decide ((pageSlice items page).length = 100) = false)
            omega
          have hdata : pageSlice items page = items.drop ((page - 1) * 100) := by
            unfold pageSlice
            exact List.take_of_length_le (by omega)
          rw [hdata]
          have hcnt : cnt + 1
              = cnt + ((items.drop ((page - 1) * 100)).length / 100 + 1) := by
            omega
          rw [hcnt]

/-- C6 (confirmed): against a store of any size the loop starts at page 1
and, when the server reports pagination metadata with
totalPages = ceil(total/100), returns all items concatenated in server
order using exactly max(1, ceil(total/100)) page requests — an empty
page 1 yields the empty sequence after a single request, not an error,
and 250 items take exactly 3 requests; when the server omits the
metadata it continues exactly while a page returns exactly 100 items,
returning all items with total/100 + 1 requests (again 3 for 250). -/
theorem C6_getAllGroupsInWorkspace (items : List Group) :
    getAllGroupsInWorkspace (metaFetch items) (items.length / 100 + 2)
      = some (.ok (items, max 1 ((items.length + 99) / 100)))
    ∧ getAllGroupsInWorkspace (noMetaFetch items) (items.length / 100 + 2)
      = some (.ok (items, items.length / 100 + 1)) := by
  have hdm := Nat.div_add_mod (items.length + 99) 100
  have hmod : (items.length + 99) % 100 < 100 := Nat.mod_lt _ (by norm_num)
  have hdm2 := Nat.div_add_mod items.length 100
  have hmod2 : items.length % 100 < 100 := Nat.mod_lt _ (by norm_num)
  constructor
  · have := fetchAllGo_meta items (items.length / 100 + 2) 1 0 []
      (le_refl 1) (by omega) (by omega)
    unfold getAllGroupsInWorkspace
    rw [this]
    simp only [show (1 - 1) * 100 = 0 from rfl, List.drop_zero, List.nil_append]
    have : max 1 ((items.length + 99) / 100 + 1 - 1)
        = max 1 ((items.length + 99) / 100) := by omega
    rw [this, Nat.zero_add]
  · have := fetchAllGo_noMeta items (items.length / 100 + 2) 1 0 []
      (le_refl 1) (by simp only [show (1 - 1) * 100 = 0 from rfl,
        List.drop_zero]; omega)
    unfold getAllGroupsInWorkspace
    rw [this]
    simp only [show (1 - 1) * 100 = 0 from rfl, List.drop_zero, List.nil_append,
      Nat.zero_add]

/-! ## Claim C7: the Resource Client's request -/

/-- C7 (corrected).  As stated the claim fails: on a non-2xx response the
client passes through any *truthy* parsed body unchanged, whether or not
it is a structured error envelope, so the result can be neither of the
two tagged variants.  Amended claim, proved here: a thrown transport
error yields a NETWORK_ERROR failure envelope carrying the thrown message
(or a default text for non-Error values); a non-2xx response with a
truthy parsed body returns that body unchanged; a non-2xx response whose
body is missing, unparseable or falsy yields an HTTP_ERROR failure
envelope with the status-derived message; a 2xx response yields a
success-tagged envelope. -/
theorem C7_request_amended :
    (∀ (isError : Bool) (msg : String),
      request (.exn isError msg)
        = errorEnvelope "NETWORK_ERROR"
            (if isError then msg else "Network or server error occurred")
      ∧ isFailureEnvelope (request (.exn isError msg)) = true)
    ∧ (∀ (status : Nat) (statusText : String) (body : JVal),
        ¬(200 ≤ status ∧ status ≤ 299) →
        (body.truthy = true → request (.resp status statusText body) = body)
        ∧ (body.truthy = false →
            request (.resp status statusText body)
              = errorEnvelope "HTTP_ERROR"
                  ("HTTP " ++ Nat.repr status ++ ": " ++ statusText)
            ∧ isFailureEnvelope (request (.resp status statusText body)) = true))
    ∧ (∀ (status : Nat) (statusText : String) (body : JVal),
        200 ≤ status ∧ status ≤ 299 →
        isSuccessEnvelope (request (.resp status statusText body)) = true) := by
  refine ⟨fun isError msg => ⟨rfl, rfl⟩, ?_, ?_⟩
  · intro status statusText body hnot
    constructor
    · intro ht
      simp only [request]
      rw [if_neg hnot]
      simp [ht]
    · intro ht
      constructor
      · simp only [request]
        rw [if_neg hnot]
        simp [ht]
      · simp only [request]
        rw [if_neg hnot]
        simp only [ht, Bool.false_eq_true, if_false]
        rfl
  · intro status statusText body hok
    simp only [request]
    rw [if_pos hok]
    cases hm : body.getField "meta" <;> rfl

/-- C7 counterexample: a 500 response whose body parses to the truthy
object with the single field hello is returned unchanged — it is neither
a Success nor a Failure envelope, and not the HTTP_ERROR failure the
claim requires for a non-2xx response without a structured error body. -/
theorem C7_request_cex :
    request (.resp 500 "Internal Server Error" (.jobj [("hello", .jnum 1)]))
      = .jobj [("hello", .jnum 1)]
      ∧ isFailureEnvelope (.jobj [("hello", .jnum 1)]) = false
      ∧ isSuccessEnvelope (.jobj [("hello", .jnum 1)]) = false :=
  ⟨rfl, rfl, rfl⟩

/-- C7 witness: the amended claim applied to one concrete outcome of each
kind. -/
theorem C7_request_witness :
    request (.exn true "boom") = errorEnvelope "NETWORK_ERROR" "boom"
      ∧ request (.resp 404 "Not Found" .jnull)
          = errorEnvelope "HTTP_ERROR" ("HTTP " ++ Nat.repr 404 ++ ": " ++ "Not Found")
      ∧ request (.resp 401 "Unauthorized" (errorEnvelope "UNAUTHORIZED" "denied"))
          = errorEnvelope "UNAUTHORIZED" "denied"
      ∧ isSuccessEnvelope (request (.resp 200 "OK" (.jobj [("data", .jarr [])])))
          = true := by
  refine ⟨?_, ?_, ?_, ?_⟩
  · exact (C7_request_amended.1 true "boom").1
  · exact ((C7_request_amended.2.1 404 "Not Found" .jnull (by omega)).2 rfl).1
  · exact (C7_request_amended.2.1 401 "Unauthorized"
      (errorEnvelope "UNAUTHORIZED" "denied") (by omega)).1 rfl
  · exact C7_request_amended.2.2 200 "OK" (.jobj [("data", .jarr [])]) (by omega)

/-! ## Claim C9: appendToNote -/

/-- C9 (corrected).  As stated the claim fails: `appendToNote` inserts
the blank-line separator unconditionally, also when the existing content
is empty.  Amended claim, proved here: when the note is found, the
written content is always existing content + blank line + new content —
with an empty existing content the written content therefore begins with
the separator. -/
theorem C9_appendToNote_amended (noteId additionalContent : String)
    (ws : Option String) (notes : List Note) (current : Note)
    (hfind : getNoteById noteId ws notes = some current) :
    ∃ r, (appendToNote noteId additionalContent ws notes).1 = some r
      ∧ r.content = current.content ++ "\n\n" ++ additionalContent
      ∧ (appendToNote noteId additionalContent ws notes).2
          = notes.map (fun m => if m.id == noteId then
              { m with content := current.content ++ "\n\n" ++ additionalContent }
              else m) := by
  have hfind' : ((notes.filter (matchesNotesQuery ⟨ws, some 100⟩)).take 100).find?
      (fun n => n.id == noteId) = some current := hfind
  have hmem : current ∈ notes := by
    have h1 := List.mem_of_find?_eq_some hfind'
    exact List.mem_of_mem_filter (List.take_subset 100 _ h1)
  have hpred : (current.id == noteId) = true := by
    have := List.find?_some hfind'
    simpa using this
  cases hupd : notes.find? (fun n => n.id == noteId) with
  | none =>
      exfalso
      have := List.find?_eq_none.mp hupd current hmem
      simp [hpred] at this
  | some n0 =>
      refine ⟨{ n0 with
          content := current.content ++ "\n\n" ++ additionalContent }, ?_, rfl, ?_⟩
      · simp only [appendToNote, hfind, srvUpdateNote, hupd]
      · simp only [appendToNote, hfind, srvUpdateNote, hupd]

/-- C9 counterexample: appending x to a note whose content is empty
writes a content that begins with the blank-line separator, not the bare
appended content the claim requires. -/
theorem C9_appendToNote_cex :
    emptyNote.content = ""
      ∧ (appendToNote "n0" "x" none [emptyNote]).1
          = some { emptyNote with content := "\n\nx" }
      ∧ ("\n\nx" : String) ≠ "x" := by
  decide

/-- C9 witness: the amended claim applied to a note with content hello. -/
theorem C9_appendToNote_witness :
    getNoteById "n1" none [helloNote] = some helloNote
      ∧ ∃ r, (appendToNote "n1" "x" none [helloNote]).1 = some r
          ∧ r.content = "hello" ++ "\n\n" ++ "x"
          ∧ (appendToNote "n1" "x" none [helloNote]).2
              = [helloNote].map (fun m => if m.id == "n1" then
                  { m with content := "hello" ++ "\n\n" ++ "x" } else m) := by
  refine ⟨by decide, ?_⟩
  exact C9_appendToNote_amended "n1" "x" none [helloNote] helloNote (by decide)

/-! ## Claim C10: the get-by-id helpers -/

theorem listQueries_append (t₁ t₂ : List SrvEvent) :
    listQueries (t₁ ++ t₂) = listQueries t₁ ++ listQueries t₂ := by
  simp [listQueries]

/-- C10 (confirmed): each get-by-id helper issues exactly one list call
with limit 100 and no create; it returns Success with the first entity
among the first 100 listed items whose id matches, and Success with null
data when no such entity is among those first 100 — even when the entity
exists beyond them. -/
theorem C10_get_by_id_single_page :
    (∀ (gid : String) (ws : Option String) (st : SrvState), st.schedule = [] →
      listQueries (getGroupById gid ws st).2.trace
          = listQueries st.trace ++ [byIdQuery ws]
        ∧ (byIdQuery ws).limit = some 100
        ∧ createCount (getGroupById gid ws st).2.trace = createCount st.trace
        ∧ (∀ g, ((st.groups.filter (matchesGroupQuery (byIdQuery ws))).take 100).find?
              (fun x => x.id == gid) = some g →
            (getGroupById gid ws st).1 = .ok (some g))
        ∧ (((st.groups.filter (matchesGroupQuery (byIdQuery ws))).take 100).find?
              (fun x => x.id == gid) = none →
            (getGroupById gid ws st).1 = .ok none))
    ∧ (∀ (nid : String) (ws : Option String) (notes : List Note),
        (∀ n, ((notes.filter (matchesNotesQuery ⟨ws, some 100⟩)).take 100).find?
              (fun x => x.id == nid) = some n → getNoteById nid ws notes = some n)
        ∧ (((notes.filter (matchesNotesQuery ⟨ws, some 100⟩)).take 100).find?
              (fun x => x.id == nid) = none → getNoteById nid ws notes = none))
    ∧ (∀ (tid : String) (ws : Option String) (todos : List Todo),
        (∀ t, ((todos.filter (matchesTodosQuery ⟨ws, some 100⟩)).take 100).find?
              (fun x => x.id == tid) = some t → getTodoById tid ws todos = some t)
        ∧ (((todos.filter (matchesTodosQuery ⟨ws, some 100⟩)).take 100).find?
              (fun x => x.id == tid) = none → getTodoById tid ws todos = none)) := by
  refine ⟨?_, ?_, ?_⟩
  · intro gid ws st hsched
    refine ⟨?_, rfl, ?_, ?_, ?_⟩
    · simp only [getGroupById, srvList_ok hsched]
      rw [listQueries_append]
      rfl
    · simp only [getGroupById, srvList_ok hsched]
      exact createCount_list_event st.trace (byIdQuery ws)
    · intro g hf
      simp only [getGroupById, srvList_ok hsched]
      simp only [show applyLimit (byIdQuery ws).limit
          (st.groups.filter (matchesGroupQuery (byIdQuery ws)))
        = (st.groups.filter (matchesGroupQuery (byIdQuery ws))).take 100 from rfl]
      rw [hf]
    · intro hf
      simp only [getGroupById, srvList_ok hsched]
      simp only [show applyLimit (byIdQuery ws).limit
          (st.groups.filter (matchesGroupQuery (byIdQuery ws)))
        = (st.groups.filter (matchesGroupQuery (byIdQuery ws))).take 100 from rfl]
      rw [hf]
  · intro nid ws notes
    exact ⟨fun n hf => hf, fun hf => hf⟩
  · intro tid ws todos
    exact ⟨fun t hf => hf, fun hf => hf⟩

/-- C10 witness: stores holding 101 entities with ids 0 to 100 — the
entity with id 100 exists but sits beyond the first 100 listed items, so
every helper reports the null soft miss rather than finding it or
erroring. -/
theorem C10_get_by_id_witness :
    manyStore.schedule = []
      ∧ ((manyStore.groups.filter (matchesGroupQuery (byIdQuery (some "w")))).take 100).find?
          (fun x => x.id == "100") = none
      ∧ (∃ g ∈ manyGroups, g.id = "100")
      ∧ (getGroupById "100" (some "w") manyStore).1 = .ok none
      ∧ ((manyNotes.filter (matchesNotesQuery ⟨none, some 100⟩)).take 100).find?
          (fun x => x.id == "100") = none
      ∧ (∃ n ∈ manyNotes, n.id = "100")
      ∧ getNoteById "100" none manyNotes = none
      ∧ ((manyTodos.filter (matchesTodosQuery ⟨none, some 100⟩)).take 100).find?
          (fun x => x.id == "100") = none
      ∧ (∃ t ∈ manyTodos, t.id = "100")
      ∧ getTodoById "100" none manyTodos = none := by
  refine ⟨rfl, by decide, by decide, ?_, by decide, by decide, ?_,
    by decide, by decide, ?_⟩
  · exact (C10_get_by_id_single_page.1 "100" (some "w") manyStore rfl).2.2.2.2
      (by decide)
  · exact (C10_get_by_id_single_page.2.1 "100" none manyNotes).2 (by decide)
  · exact (C10_get_by_id_single_page.2.2 "100" none manyTodos).2 (by decide)

end Sidvy
